import Mathlib

/-!
Shallow embedding of the evmodin EVM interpreter (Rust) in Lean 4.

Types and functions mirror the source files:
  src/common.rs      (Revision, StatusCode, CallKind, Message, Output, SuccessfulOutput)
  src/state.rs       (Stack, Memory, ExecutionState)
  src/host.rs        (AccessStatus, StorageStatus, TxContext, Host)
  src/instructions/* (opcode handlers, properties and gas tables)
  src/interpreter.rs (analyzer, check_requirements, interpreter loop)

256-bit words are Nat reduced mod 2^256 at wrap sites; i64 quantities
(gas) are Int; byte strings are List Nat; addresses are Nat (20 bytes).
The host is a record of reply functions; every suspension the interpreter
would yield is also recorded as an Event so that theorems can speak about
which suspensions an instruction emitted.
-/

deriving instance DecidableEq for Except

namespace Evmodin

/-- Modulus of 256-bit EVM words. -/
def U256L : Nat := 2 ^ 256

/-- MAX_BUFFER_SIZE from src/instructions/memory.rs (u32::MAX). -/
def MAX_BUFFER_SIZE : Nat := 4294967295

/-- i64::MAX, the initial nested-call gas in do_call (src/instructions/call.rs). -/
def I64_MAX : Int := 9223372036854775807

/-- EVM revision (src/common.rs), with its discriminant. -/
inductive Revision where
  | Frontier
  | Homestead
  | Tangerine
  | Spurious
  | Byzantium
  | Constantinople
  | Petersburg
  | Istanbul
  | Berlin
  | London
  | Shanghai
deriving DecidableEq, Repr

/-- Discriminant of a revision, as declared in src/common.rs (Frontier = 0 .. Shanghai = 10). -/
def Revision.num : Revision → Nat
  | .Frontier => 0
  | .Homestead => 1
  | .Tangerine => 2
  | .Spurious => 3
  | .Byzantium => 4
  | .Constantinople => 5
  | .Petersburg => 6
  | .Istanbul => 7
  | .Berlin => 8
  | .London => 9
  | .Shanghai => 10

/-- The derived total order on revisions (PartialOrd/Ord derive in src/common.rs):
rev >= s. -/
def Revision.atLeast (r s : Revision) : Bool := s.num ≤ r.num

/-- Revision::latest() (src/common.rs). -/
def Revision.latest : Revision := .Shanghai

/-- Message status code (src/common.rs). -/
inductive StatusCode where
  | Success
  | Failure
  | Revert
  | OutOfGas
  | InvalidInstruction
  | UndefinedInstruction
  | StackOverflow
  | StackUnderflow
  | BadJumpDestination
  | InvalidMemoryAccess
  | CallDepthExceeded
  | StaticModeViolation
  | PrecompileFailure
  | ArgumentOutOfRange
  | InsufficientBalance
  | InternalError (detail : String)
deriving DecidableEq, Repr

/-- The kind of call-like instruction (src/common.rs). The Create2 salt is a
256-bit word. -/
inductive CallKind where
  | Call
  | DelegateCall
  | CallCode
  | Create
  | Create2 (salt : Nat)
deriving DecidableEq, Repr

/-- The message describing an EVM call (src/common.rs). Addresses are Nat
(20 bytes big-endian); gas and depth are Int (i64 / i32 in the source). -/
structure Message where
  kind : CallKind
  is_static : Bool
  depth : Int
  gas : Int
  destination : Nat
  sender : Nat
  input_data : List Nat
  value : Nat
deriving DecidableEq, Repr

/-- Output of EVM execution (src/common.rs). -/
structure Output where
  status_code : StatusCode
  gas_left : Int
  output_data : List Nat
  create_address : Option Nat
deriving DecidableEq, Repr

/-- EVM execution output if no error has occurred (src/common.rs). -/
structure SuccessfulOutput where
  reverted : Bool
  gas_left : Int
  output_data : List Nat
deriving DecidableEq, Repr

/-- From<SuccessfulOutput> for Output (src/common.rs lines 238-257). -/
def SuccessfulOutput.toOutput (s : SuccessfulOutput) : Output :=
  { status_code := if s.reverted then .Revert else .Success
    gas_left := s.gas_left
    output_data := s.output_data
    create_address := none }

/-- State access status, EIP-2929 (src/host.rs). -/
inductive AccessStatus where
  | Cold
  | Warm
deriving DecidableEq, Repr

/-- Storage modification status (src/host.rs). -/
inductive StorageStatus where
  | Unchanged
  | Modified
  | ModifiedAgain
  | Added
  | Deleted
deriving DecidableEq, Repr

/-- The transaction and block data for execution (src/host.rs). -/
structure TxContext where
  tx_gas_price : Nat
  tx_origin : Nat
  block_coinbase : Nat
  block_number : Nat
  block_timestamp : Nat
  block_gas_limit : Nat
  block_difficulty : Nat
  chain_id : Nat
  block_base_fee : Nat
deriving DecidableEq, Repr

/-- The host, embedded as a record of reply functions: exactly the replies
run_to_completion_with_host2 (src/interpreter.rs lines 194-287) computes from
the Host trait (src/host.rs) for each interrupt variant. The keccak256 field
abstracts the Keccak-256 digest supplied by the external sha3 crate used by
src/instructions/memory.rs; it is not code of this repository. -/
structure EvmHost where
  account_exists : Nat → Bool
  get_storage : Nat → Nat → Nat
  set_storage : Nat → Nat → Nat → StorageStatus
  get_balance : Nat → Nat
  get_code_size : Nat → Nat
  get_code_hash : Nat → Nat
  copy_code : Nat → Nat → Nat → List Nat
  call : Message → Output
  get_tx_context : TxContext
  get_block_hash : Nat → Nat
  access_account : Nat → AccessStatus
  access_storage : Nat → Nat → AccessStatus
  keccak256 : List Nat → Nat

/-- One suspension yielded to the host (interrupt variants of
src/continuation; the trace-only InstructionStart variant is omitted, matching
execution with tracing disabled). -/
inductive Event where
  | AccountExists (address : Nat)
  | GetStorage (address key : Nat)
  | SetStorage (address key value : Nat)
  | GetBalance (address : Nat)
  | GetCodeSize (address : Nat)
  | GetCodeHash (address : Nat)
  | CopyCode (address offset max_size : Nat)
  | Selfdestruct (address beneficiary : Nat)
  | Call (message : Message)
  | GetTxContext
  | GetBlockHash (block_number : Nat)
  | EmitLog (address : Nat) (data : List Nat) (topics : List Nat)
  | AccessAccount (address : Nat)
  | AccessStorage (address key : Nat)
deriving DecidableEq, Repr

/-- u256_to_address (src/common.rs): keep the 20 low bytes. -/
def u256_to_address (v : Nat) : Nat := v % 2 ^ 160

/-- address_to_u256 (src/common.rs): big-endian bytes of an address as a word;
with addresses as Nat this is the identity. -/
def address_to_u256 (v : Nat) : Nat := v

/-- EVM execution state (src/state.rs). The stack is a list with the top at
the head; memory is a byte list. -/
structure ExecutionState where
  gas_left : Int
  stack : List Nat
  memory : List Nat
  message : Message
  evm_revision : Revision
  return_data : List Nat
  output_data : List Nat
deriving DecidableEq, Repr

/-- ExecutionState::new (src/state.rs lines 74-86). -/
def ExecutionState.new (message : Message) (evm_revision : Revision) : ExecutionState :=
  { gas_left := message.gas
    stack := []
    memory := []
    message
    evm_revision
    return_data := []
    output_data := [] }

/-- Stack::get(pos): the item pos slots below the top (src/state.rs). The
source indexes into an ArrayVec and panics when absent; handlers only run
after check_requirements has verified the stack height, so the default 0 is
never observable. -/
def stackGet (stack : List Nat) (pos : Nat) : Nat := stack.getD pos 0

/-- Stack::pop (src/state.rs): the source panics on an empty stack;
guarded by check_requirements. -/
def stackPop (stack : List Nat) : Nat × List Nat := (stack.headD 0, stack.tail)

/-- Stack::swap_top(pos) (src/state.rs): exchange the top with the item pos
slots below it. -/
def stackSwapTop (stack : List Nat) (pos : Nat) : List Nat :=
  (stack.set 0 (stackGet stack pos)).set pos (stackGet stack 0)

/-- Big-endian bytes to an unsigned integer (U256::from_big_endian). -/
def beToNat (l : List Nat) : Nat := l.foldl (fun acc b => acc * 256 + b) 0

/-- 32-byte big-endian representation of a word (U256::to_big_endian). -/
def natToBe32 (v : Nat) : List Nat :=
  (List.range 32).map fun i => v / 256 ^ (31 - i) % 256

/-- Slice memory[off .. off+len] (guarded by region verification). -/
def memSlice (mem : List Nat) (off len : Nat) : List Nat := (mem.drop off).take len

/-- Overwrite memory[off .. off+bytes.len] with bytes (copy_from_slice;
in-bounds by region verification). -/
def memWrite (mem : List Nat) (off : Nat) (bytes : List Nat) : List Nat :=
  mem.take off ++ bytes ++ mem.drop (off + bytes.length)

/-- Vec::resize(n, v): truncate or pad with v up to length n. -/
def listResize (l : List Nat) (n : Nat) (v : Nat) : List Nat :=
  l.take n ++ List.replicate (n - l.length) v

/-- num_words (src/instructions/memory.rs lines 13-15): bytes rounded up to
32-byte words. -/
def num_words (size_in_bytes : Nat) : Nat := (size_in_bytes + 31) / 32

/-! Gas cost tables (src/instructions/properties.rs lines 198-373). Each
revision overlays deltas on the previous table. -/

/-- COLD_SLOAD_COST (src/instructions/properties.rs). -/
def COLD_SLOAD_COST : Nat := 2100

/-- COLD_ACCOUNT_ACCESS_COST (src/instructions/properties.rs). -/
def COLD_ACCOUNT_ACCESS_COST : Nat := 2600

/-- WARM_STORAGE_READ_COST (src/instructions/properties.rs). -/
def WARM_STORAGE_READ_COST : Nat := 100

/-- ADDITIONAL_COLD_ACCOUNT_ACCESS_COST (src/instructions/properties.rs). -/
def ADDITIONAL_COLD_ACCOUNT_ACCESS_COST : Nat :=
  COLD_ACCOUNT_ACCESS_COST - WARM_STORAGE_READ_COST

/-- FRONTIER_GAS_COSTS (src/instructions/properties.rs lines 198-285). -/
def frontier_gas_costs : Nat → Option Nat
  | 0x00 => some 0
  | 0x01 => some 3
  | 0x02 => some 5
  | 0x03 => some 3
  | 0x04 => some 5
  | 0x05 => some 5
  | 0x06 => some 5
  | 0x07 => some 5
  | 0x08 => some 8
  | 0x09 => some 8
  | 0x0a => some 10
  | 0x0b => some 5
  | 0x10 => some 3
  | 0x11 => some 3
  | 0x12 => some 3
  | 0x13 => some 3
  | 0x14 => some 3
  | 0x15 => some 3
  | 0x16 => some 3
  | 0x17 => some 3
  | 0x18 => some 3
  | 0x19 => some 3
  | 0x1a => some 3
  | 0x20 => some 30
  | 0x30 => some 2
  | 0x31 => some 20
  | 0x32 => some 2
  | 0x33 => some 2
  | 0x34 => some 2
  | 0x35 => some 3
  | 0x36 => some 2
  | 0x37 => some 3
  | 0x38 => some 2
  | 0x39 => some 3
  | 0x3a => some 2
  | 0x3b => some 20
  | 0x3c => some 20
  | 0x40 => some 20
  | 0x41 => some 2
  | 0x42 => some 2
  | 0x43 => some 2
  | 0x44 => some 2
  | 0x45 => some 2
  | 0x50 => some 2
  | 0x51 => some 3
  | 0x52 => some 3
  | 0x53 => some 3
  | 0x54 => some 50
  | 0x55 => some 0
  | 0x56 => some 8
  | 0x57 => some 10
  | 0x58 => some 2
  | 0x59 => some 2
  | 0x5a => some 2
  | 0x5b => some 1
  | 0xf0 => some 32000
  | 0xf1 => some 40
  | 0xf2 => some 40
  | 0xf3 => some 0
  | 0xfe => some 0
  | 0xff => some 0
  | op =>
    if 0x60 ≤ op ∧ op ≤ 0x7f then some 3
    else if 0x80 ≤ op ∧ op ≤ 0x8f then some 3
    else if 0x90 ≤ op ∧ op ≤ 0x9f then some 3
    else if 0xa0 ≤ op ∧ op ≤ 0xa4 then some ((1 + (op - 0xa0)) * 375)
    else none

/-- HOMESTEAD_GAS_COSTS (src/instructions/properties.rs lines 287-291). -/
def homestead_gas_costs (op : Nat) : Option Nat :=
  if op = 0xf4 then some 40 else frontier_gas_costs op

/-- TANGERINE_GAS_COSTS (src/instructions/properties.rs lines 293-304). -/
def tangerine_gas_costs (op : Nat) : Option Nat :=
  if op = 0x31 then some 400
  else if op = 0x3b then some 700
  else if op = 0x3c then some 700
  else if op = 0x54 then some 200
  else if op = 0xf1 then some 700
  else if op = 0xf2 then some 700
  else if op = 0xf4 then some 700
  else if op = 0xff then some 5000
  else homestead_gas_costs op

/-- SPURIOUS_GAS_COSTS (src/instructions/properties.rs line 306). -/
def spurious_gas_costs (op : Nat) : Option Nat := tangerine_gas_costs op

/-- BYZANTIUM_GAS_COSTS (src/instructions/properties.rs lines 308-315). -/
def byzantium_gas_costs (op : Nat) : Option Nat :=
  if op = 0x3d then some 2
  else if op = 0x3e then some 3
  else if op = 0xfa then some 700
  else if op = 0xfd then some 0
  else spurious_gas_costs op

/-- CONSTANTINOPLE_GAS_COSTS (src/instructions/properties.rs lines 317-325). -/
def constantinople_gas_costs (op : Nat) : Option Nat :=
  if op = 0x1b then some 3
  else if op = 0x1c then some 3
  else if op = 0x1d then some 3
  else if op = 0x3f then some 400
  else if op = 0xf5 then some 32000
  else byzantium_gas_costs op

/-- PETERSBURG_GAS_COSTS (src/instructions/properties.rs line 327). -/
def petersburg_gas_costs (op : Nat) : Option Nat := constantinople_gas_costs op

/-- ISTANBUL_GAS_COSTS (src/instructions/properties.rs lines 329-337). -/
def istanbul_gas_costs (op : Nat) : Option Nat :=
  if op = 0x31 then some 700
  else if op = 0x46 then some 2
  else if op = 0x3f then some 700
  else if op = 0x47 then some 5
  else if op = 0x54 then some 800
  else petersburg_gas_costs op

/-- BERLIN_GAS_COSTS (src/instructions/properties.rs lines 339-351). -/
def berlin_gas_costs (op : Nat) : Option Nat :=
  if op = 0x3b then some WARM_STORAGE_READ_COST
  else if op = 0x3c then some WARM_STORAGE_READ_COST
  else if op = 0x3f then some WARM_STORAGE_READ_COST
  else if op = 0x31 then some WARM_STORAGE_READ_COST
  else if op = 0xf1 then some WARM_STORAGE_READ_COST
  else if op = 0xf2 then some WARM_STORAGE_READ_COST
  else if op = 0xf4 then some WARM_STORAGE_READ_COST
  else if op = 0xfa then some WARM_STORAGE_READ_COST
  else if op = 0x54 then some WARM_STORAGE_READ_COST
  else istanbul_gas_costs op

/-- LONDON_GAS_COSTS (src/instructions/properties.rs lines 353-357). -/
def london_gas_costs (op : Nat) : Option Nat :=
  if op = 0x48 then some 2 else berlin_gas_costs op

/-- gas_costs (src/instructions/properties.rs lines 359-373). -/
def gas_costs : Revision → Nat → Option Nat
  | .Frontier => frontier_gas_costs
  | .Homestead => homestead_gas_costs
  | .Tangerine => tangerine_gas_costs
  | .Spurious => spurious_gas_costs
  | .Byzantium => byzantium_gas_costs
  | .Constantinople => constantinople_gas_costs
  | .Petersburg => petersburg_gas_costs
  | .Istanbul => istanbul_gas_costs
  | .Berlin => berlin_gas_costs
  | .London => london_gas_costs
  | .Shanghai => london_gas_costs

/-- Per-opcode stack metadata (Properties in src/instructions/properties.rs). -/
structure OpProperties where
  stack_height_required : Nat
  stack_height_change : Int
deriving DecidableEq, Repr

/-- PROPERTIES (src/instructions/properties.rs lines 37-195): stack height
required and stack height change per opcode. -/
def properties : Nat → Option OpProperties
  | 0x00 => some ⟨0, 0⟩
  | 0x01 => some ⟨2, -1⟩
  | 0x02 => some ⟨2, -1⟩
  | 0x03 => some ⟨2, -1⟩
  | 0x04 => some ⟨2, -1⟩
  | 0x05 => some ⟨2, -1⟩
  | 0x06 => some ⟨2, -1⟩
  | 0x07 => some ⟨2, -1⟩
  | 0x08 => some ⟨3, -2⟩
  | 0x09 => some ⟨3, -2⟩
  | 0x0a => some ⟨2, -1⟩
  | 0x0b => some ⟨2, -1⟩
  | 0x10 => some ⟨2, -1⟩
  | 0x11 => some ⟨2, -1⟩
  | 0x12 => some ⟨2, -1⟩
  | 0x13 => some ⟨2, -1⟩
  | 0x14 => some ⟨2, -1⟩
  | 0x15 => some ⟨1, 0⟩
  | 0x16 => some ⟨2, -1⟩
  | 0x17 => some ⟨2, -1⟩
  | 0x18 => some ⟨2, -1⟩
  | 0x19 => some ⟨1, 0⟩
  | 0x1a => some ⟨2, -1⟩
  | 0x1b => some ⟨2, -1⟩
  | 0x1c => some ⟨2, -1⟩
  | 0x1d => some ⟨2, -1⟩
  | 0x20 => some ⟨2, -1⟩
  | 0x30 => some ⟨0, 1⟩
  | 0x31 => some ⟨1, 0⟩
  | 0x32 => some ⟨0, 1⟩
  | 0x33 => some ⟨0, 1⟩
  | 0x34 => some ⟨0, 1⟩
  | 0x35 => some ⟨1, 0⟩
  | 0x36 => some ⟨0, 1⟩
  | 0x37 => some ⟨3, -3⟩
  | 0x38 => some ⟨0, 1⟩
  | 0x39 => some ⟨3, -3⟩
  | 0x3a => some ⟨0, 1⟩
  | 0x3b => some ⟨1, 0⟩
  | 0x3c => some ⟨4, -4⟩
  | 0x3d => some ⟨0, 1⟩
  | 0x3e => some ⟨3, -3⟩
  | 0x3f => some ⟨1, 0⟩
  | 0x40 => some ⟨1, 0⟩
  | 0x41 => some ⟨0, 1⟩
  | 0x42 => some ⟨0, 1⟩
  | 0x43 => some ⟨0, 1⟩
  | 0x44 => some ⟨0, 1⟩
  | 0x45 => some ⟨0, 1⟩
  | 0x46 => some ⟨0, 1⟩
  | 0x47 => some ⟨0, 1⟩
  | 0x48 => some ⟨0, 1⟩
  | 0x50 => some ⟨1, -1⟩
  | 0x51 => some ⟨1, 0⟩
  | 0x52 => some ⟨2, -2⟩
  | 0x53 => some ⟨2, -2⟩
  | 0x54 => some ⟨1, 0⟩
  | 0x55 => some ⟨2, -2⟩
  | 0x56 => some ⟨1, -1⟩
  | 0x57 => some ⟨2, -2⟩
  | 0x58 => some ⟨0, 1⟩
  | 0x59 => some ⟨0, 1⟩
  | 0x5a => some ⟨0, 1⟩
  | 0x5b => some ⟨0, 0⟩
  | 0xf0 => some ⟨3, -2⟩
  | 0xf1 => some ⟨7, -6⟩
  | 0xf2 => some ⟨7, -6⟩
  | 0xf3 => some ⟨2, -2⟩
  | 0xf4 => some ⟨6, -5⟩
  | 0xf5 => some ⟨4, -3⟩
  | 0xfa => some ⟨6, -5⟩
  | 0xfd => some ⟨2, -2⟩
  | 0xfe => some ⟨0, 0⟩
  | 0xff => some ⟨1, -1⟩
  | op =>
    if 0x60 ≤ op ∧ op ≤ 0x7f then some ⟨0, 1⟩
    else if 0x80 ≤ op ∧ op ≤ 0x8f then some ⟨op - 0x7f, 1⟩
    else if 0x90 ≤ op ∧ op ≤ 0x9f then some ⟨op - 0x8f + 1, 0⟩
    else if 0xa0 ≤ op ∧ op ≤ 0xa4 then some ⟨op - 0xa0 + 2, -((op : Int) - 0xa0 + 2)⟩
    else none

/-- Merged per-revision instruction metadata (InstructionTableEntry in
src/instructions/instruction_table.rs). -/
structure InstructionTableEntry where
  gas_cost : Nat
  stack_height_required : Nat
  can_overflow_stack : Bool
deriving DecidableEq, Repr

/-- The per-revision instruction table: an opcode is defined at a revision
exactly when it has an entry in that revision's gas cost table (absent
entries surface as UndefinedInstruction, spec section 4.4); stack metadata
comes from PROPERTIES and can_overflow_stack is stack_height_change > 0
(src/instructions/instruction_table.rs lines 104-119). -/
def instruction_table (rev : Revision) (op : Nat) : Option InstructionTableEntry :=
  match gas_costs rev op, properties op with
  | some g, some p => some ⟨g, p.stack_height_required, p.stack_height_change > 0⟩
  | _, _ => none

/-- STACK_SIZE (src/state.rs line 8). -/
def STACK_SIZE : Nat := 1024

/-- check_requirements (src/interpreter.rs lines 13-37): look up the
instruction, debit base gas, check gas and stack-height requirements. -/
def check_requirements (rev : Revision) (state : ExecutionState) (op : Nat) :
    Except StatusCode ExecutionState :=
  match instruction_table rev op with
  | none => .error .UndefinedInstruction
  | some metrics =>
    let state := { state with gas_left := state.gas_left - metrics.gas_cost }
    if state.gas_left < 0 then .error .OutOfGas
    else
      let stack_size := state.stack.length
      if stack_size = STACK_SIZE then
        if metrics.can_overflow_stack then .error .StackOverflow else .ok state
      else if stack_size < metrics.stack_height_required then .error .StackUnderflow
      else .ok state

/-! Signed 256-bit helpers (the i256 crate used by src/instructions): I256 is
the two's-complement reading of a U256; division/remainder truncate toward
zero, divide by zero yields zero, and MIN / -1 wraps to MIN. -/

/-- Two's-complement reading of a 256-bit word. -/
def toSigned (v : Nat) : Int := if v < 2 ^ 255 then (v : Int) else (v : Int) - (U256L : Int)

/-- Truncate an integer back to a 256-bit word (two's complement). -/
def ofSigned (i : Int) : Nat := (i % (U256L : Int)).toNat

/-- Sign of an I256 value (i256 crate: Plus / NoSign / Minus). -/
inductive I256Sign where
  | Plus
  | NoSign
  | Minus
deriving DecidableEq, Repr

/-- I256::from(U256): the sign component. -/
def i256sign (v : Nat) : I256Sign :=
  if v = 0 then .NoSign else if v < 2 ^ 255 then .Plus else .Minus

/-- I256::from(U256): the magnitude component. -/
def i256magnitude (v : Nat) : Nat := if v < 2 ^ 255 then v else U256L - v

/-! Arithmetic handlers (src/instructions/arithmetic.rs). Each pure handler
maps the stack to the stack; pops are guarded by check_requirements. -/

/-- add (src/instructions/arithmetic.rs): wrapping addition. -/
def arith_add (stack : List Nat) : List Nat :=
  let (a, stack) := stackPop stack
  let (b, stack) := stackPop stack
  (a + b) % U256L :: stack

/-- mul (src/instructions/arithmetic.rs): wrapping multiplication. -/
def arith_mul (stack : List Nat) : List Nat :=
  let (a, stack) := stackPop stack
  let (b, stack) := stackPop stack
  (a * b) % U256L :: stack

/-- sub (src/instructions/arithmetic.rs): wrapping subtraction. -/
def arith_sub (stack : List Nat) : List Nat :=
  let (a, stack) := stackPop stack
  let (b, stack) := stackPop stack
  ofSigned ((a : Int) - (b : Int)) :: stack

/-- div (src/instructions/arithmetic.rs): unsigned division, zero divisor
yields zero. -/
def arith_div (stack : List Nat) : List Nat :=
  let (a, stack) := stackPop stack
  let (b, stack) := stackPop stack
  (if b = 0 then 0 else a / b) :: stack

/-- sdiv (src/instructions/arithmetic.rs): I256 division (i256 crate
semantics: truncating, zero divisor yields zero, MIN / -1 wraps). -/
def arith_sdiv (stack : List Nat) : List Nat :=
  let (a, stack) := stackPop stack
  let (b, stack) := stackPop stack
  (if b = 0 then 0 else ofSigned (Int.tdiv (toSigned a) (toSigned b))) :: stack

/-- modulo (src/instructions/arithmetic.rs): unsigned remainder, zero divisor
yields zero. -/
def arith_mod (stack : List Nat) : List Nat :=
  let (a, stack) := stackPop stack
  let (b, stack) := stackPop stack
  (if b = 0 then 0 else a % b) :: stack

/-- smod (src/instructions/arithmetic.rs): I256 remainder (sign follows the
dividend), zero divisor yields zero. -/
def arith_smod (stack : List Nat) : List Nat :=
  let (a, stack) := stackPop stack
  let (b, stack) := stackPop stack
  (if b = 0 then 0 else ofSigned (Int.tmod (toSigned a) (toSigned b))) :: stack

/-- addmod (src/instructions/arithmetic.rs): 512-bit intermediate sum reduced
by the divisor, zero divisor yields zero. -/
def arith_addmod (stack : List Nat) : List Nat :=
  let (a, stack) := stackPop stack
  let (b, stack) := stackPop stack
  let (c, stack) := stackPop stack
  (if c = 0 then 0 else (a + b) % c) :: stack

/-- mulmod (src/instructions/arithmetic.rs): 512-bit intermediate product
reduced by the divisor, zero divisor yields zero. -/
def arith_mulmod (stack : List Nat) : List Nat :=
  let (a, stack) := stackPop stack
  let (b, stack) := stackPop stack
  let (c, stack) := stackPop stack
  (if c = 0 then 0 else (a * b) % c) :: stack

/-- log2floor (src/instructions/arithmetic.rs lines 88-105): bit length minus
one of a nonzero word, which is Nat.log2. -/
def log2floor (value : Nat) : Nat := Nat.log2 value

/-- The square-and-multiply loop of exp (src/instructions/arithmetic.rs
lines 125-133). -/
def expLoop (base power v : Nat) : Nat :=
  if power = 0 then v
  else
    expLoop ((base * base) % U256L) (power / 2)
      (if power % 2 = 1 then (v * base) % U256L else v)
termination_by power
decreasing_by exact Nat.div_lt_self (Nat.pos_of_ne_zero (by assumption)) (by omega)

/-- exp (src/instructions/arithmetic.rs lines 107-138): charge the per-byte
exponent surcharge (50 from Spurious on, else 10), then exponentiate with
wrap. -/
def arith_exp (state : ExecutionState) : Except StatusCode ExecutionState :=
  let (base, stack) := stackPop state.stack
  let (power, stack) := stackPop stack
  let state := { state with stack }
  if power ≠ 0 then
    let factor : Nat := if state.evm_revision.atLeast .Spurious then 50 else 10
    let additional_gas : Int := factor * (log2floor power / 8 + 1)
    let g := state.gas_left - additional_gas
    if g < 0 then .error .OutOfGas
    else .ok { state with gas_left := g, stack := expLoop base power 1 :: stack }
  else .ok { state with stack := expLoop base power 1 :: stack }

/-- signextend (src/instructions/arithmetic.rs lines 140-165): bit-by-bit
reconstruction copying the sign bit upward. -/
def arith_signextend (stack : List Nat) : List Nat :=
  let (a, stack) := stackPop stack
  let (b, stack) := stackPop stack
  let v :=
    if a > 32 then b
    else
      let len := a
      let t := 8 * (len + 1) - 1
      let t_bit_mask := (2 ^ t) % U256L
      let t_value := (b &&& t_bit_mask) / 2 ^ t
      (List.range 256).foldl
        (fun v i =>
          let bit_mask := 2 ^ i
          let i_value := (b &&& bit_mask) / 2 ^ i
          if i ≤ t then (v + i_value * 2 ^ i) % U256L
          else (v + t_value * 2 ^ i) % U256L)
        0
  v :: stack

/-! Comparison and bitwise handlers (src/instructions/boolean.rs and
src/instructions/bitwise.rs). -/

/-- lt (src/instructions/boolean.rs). -/
def bool_lt (stack : List Nat) : List Nat :=
  let (a, stack) := stackPop stack
  let (b, stack) := stackPop stack
  (if a < b then 1 else 0) :: stack

/-- gt (src/instructions/boolean.rs). -/
def bool_gt (stack : List Nat) : List Nat :=
  let (a, stack) := stackPop stack
  let (b, stack) := stackPop stack
  (if a > b then 1 else 0) :: stack

/-- slt (src/instructions/boolean.rs): signed comparison. -/
def bool_slt (stack : List Nat) : List Nat :=
  let (a, stack) := stackPop stack
  let (b, stack) := stackPop stack
  (if toSigned a < toSigned b then 1 else 0) :: stack

/-- sgt (src/instructions/boolean.rs): signed comparison. -/
def bool_sgt (stack : List Nat) : List Nat :=
  let (a, stack) := stackPop stack
  let (b, stack) := stackPop stack
  (if toSigned a > toSigned b then 1 else 0) :: stack

/-- eq (src/instructions/boolean.rs). -/
def bool_eq (stack : List Nat) : List Nat :=
  let (a, stack) := stackPop stack
  let (b, stack) := stackPop stack
  (if a = b then 1 else 0) :: stack

/-- iszero (src/instructions/boolean.rs). -/
def bool_iszero (stack : List Nat) : List Nat :=
  let (a, stack) := stackPop stack
  (if a = 0 then 1 else 0) :: stack

/-- and (src/instructions/boolean.rs). -/
def bool_and (stack : List Nat) : List Nat :=
  let (a, stack) := stackPop stack
  let (b, stack) := stackPop stack
  (a &&& b) :: stack

/-- or (src/instructions/boolean.rs). -/
def bool_or (stack : List Nat) : List Nat :=
  let (a, stack) := stackPop stack
  let (b, stack) := stackPop stack
  (a ||| b) :: stack

/-- xor (src/instructions/boolean.rs). -/
def bool_xor (stack : List Nat) : List Nat :=
  let (a, stack) := stackPop stack
  let (b, stack) := stackPop stack
  (a ^^^ b) :: stack

/-- not (src/instructions/boolean.rs): bitwise complement of a 256-bit
word. -/
def bool_not (stack : List Nat) : List Nat :=
  let (a, stack) := stackPop stack
  (U256L - 1 - a) :: stack

/-- byte (src/instructions/bitwise.rs lines 6-23): bit-by-bit extraction of
byte a of b. -/
def bitwise_byte (stack : List Nat) : List Nat :=
  let (a, stack) := stackPop stack
  let (b, stack) := stackPop stack
  let ret :=
    (List.range 256).foldl
      (fun ret i =>
        if i < 8 ∧ a < 32 then
          let o := a
          let t := 255 - (7 - i + 8 * o)
          let value := (b / 2 ^ t) % 2
          (ret + value * 2 ^ i) % U256L
        else ret)
      0
  ret :: stack

/-- shl (src/instructions/bitwise.rs lines 26-37). -/
def bitwise_shl (stack : List Nat) : List Nat :=
  let (shift, stack) := stackPop stack
  let (value, stack) := stackPop stack
  (if value = 0 ∨ shift ≥ 256 then 0 else value * 2 ^ shift % U256L) :: stack

/-- shr (src/instructions/bitwise.rs lines 40-51). -/
def bitwise_shr (stack : List Nat) : List Nat :=
  let (shift, stack) := stackPop stack
  let (value, stack) := stackPop stack
  (if value = 0 ∨ shift ≥ 256 then 0 else value / 2 ^ shift) :: stack

/-- sar (src/instructions/bitwise.rs lines 54-80): arithmetic shift right on
the sign-magnitude representation. -/
def bitwise_sar (stack : List Nat) : List Nat :=
  let (shift, stack) := stackPop stack
  let (v, stack) := stackPop stack
  let ret :=
    if v = 0 ∨ shift ≥ 256 then
      match i256sign v with
      | .Plus | .NoSign => 0
      | .Minus => U256L - 1
    else
      match i256sign v with
      | .Plus | .NoSign => i256magnitude v / 2 ^ shift
      | .Minus =>
        let shifted := (i256magnitude v - 1) / 2 ^ shift + 1
        (U256L - shifted) % U256L
  ret :: stack

/-! Stack manipulation (src/instructions/stack_manip.rs) and data
instructions (src/instructions/control.rs lines 34-56). -/

/-- push (src/instructions/stack_manip.rs): big-endian immediate bytes. -/
def pushValue (bytes : List Nat) : Nat := beToNat bytes

/-- dup (src/instructions/stack_manip.rs): duplicate the height-th item. -/
def stack_dup (stack : List Nat) (height : Nat) : List Nat :=
  stackGet stack (height - 1) :: stack

/-- calldataload (src/instructions/control.rs lines 34-52). -/
def calldataload (state : ExecutionState) : ExecutionState :=
  let (index, stack) := stackPop state.stack
  let input_len := state.message.input_data.length
  let v :=
    if index > input_len then 0
    else
      let e := min (index + 32) input_len
      beToNat (memSlice state.message.input_data index (e - index) ++
        List.replicate (32 - (e - index)) 0)
  { state with stack := v :: stack }

/-- calldatasize (src/instructions/control.rs lines 54-56). -/
def calldatasize (state : ExecutionState) : ExecutionState :=
  { state with stack := state.message.input_data.length :: state.stack }

/-! Memory region verification and memory instructions
(src/instructions/memory.rs). -/

/-- A verified memory region (MemoryRegion in src/instructions/memory.rs);
size is nonzero by construction of the verify functions. -/
structure MemoryRegion where
  offset : Nat
  size : Nat
deriving DecidableEq, Repr

/-- verify_memory_region_u64 (src/instructions/memory.rs lines 66-99):
reject offsets beyond u32::MAX, charge the quadratic expansion cost when the
region extends past the current memory size and resize the memory. Errors
discard the state (the frame terminates). -/
def verify_memory_region_u64 (state : ExecutionState) (offset size : Nat) :
    Except Unit (MemoryRegion × ExecutionState) :=
  if offset > MAX_BUFFER_SIZE then .error ()
  else
    let new_size := offset + size
    let current_size := state.memory.length
    if new_size > current_size then
      let new_words := num_words new_size
      let current_words := current_size / 32
      let new_cost := 3 * new_words + new_words * new_words / 512
      let current_cost := 3 * current_words + current_words * current_words / 512
      let cost : Int := (new_cost : Int) - (current_cost : Int)
      let g := state.gas_left - cost
      if g < 0 then .error ()
      else
        .ok (⟨offset, size⟩,
          { state with gas_left := g, memory := listResize state.memory (new_words * 32) 0 })
    else .ok (⟨offset, size⟩, state)

/-- verify_memory_region (src/instructions/memory.rs lines 106-120): size 0
needs no region; sizes beyond u32::MAX fail. -/
def verify_memory_region (state : ExecutionState) (offset size : Nat) :
    Except Unit (Option MemoryRegion × ExecutionState) :=
  if size = 0 then .ok (none, state)
  else if size > MAX_BUFFER_SIZE then .error ()
  else (verify_memory_region_u64 state offset size).map fun r => (some r.1, r.2)

/-- mload (src/instructions/memory.rs lines 17-30). -/
def mload (state : ExecutionState) : Except StatusCode ExecutionState :=
  let (index, stack) := stackPop state.stack
  let state := { state with stack }
  match verify_memory_region_u64 state index 32 with
  | .error _ => .error .OutOfGas
  | .ok (region, st) =>
    .ok { st with stack := beToNat (memSlice st.memory region.offset region.size) :: st.stack }

/-- mstore (src/instructions/memory.rs lines 32-45). -/
def mstore (state : ExecutionState) : Except StatusCode ExecutionState :=
  let (index, stack) := stackPop state.stack
  let (value, stack) := stackPop stack
  let state := { state with stack }
  match verify_memory_region_u64 state index 32 with
  | .error _ => .error .OutOfGas
  | .ok (region, st) =>
    .ok { st with memory := memWrite st.memory region.offset (natToBe32 value) }

/-- mstore8 (src/instructions/memory.rs lines 47-60). -/
def mstore8 (state : ExecutionState) : Except StatusCode ExecutionState :=
  let (index, stack) := stackPop state.stack
  let (value, stack) := stackPop stack
  let state := { state with stack }
  match verify_memory_region_u64 state index 1 with
  | .error _ => .error .OutOfGas
  | .ok (region, st) =>
    .ok { st with memory := memWrite st.memory region.offset [value % 256] }

/-- msize (src/instructions/memory.rs lines 62-64). -/
def msize (state : ExecutionState) : ExecutionState :=
  { state with stack := state.memory.length :: state.stack }

/-- calldatacopy (src/instructions/memory.rs lines 122-152). -/
def calldatacopy (state : ExecutionState) : Except StatusCode ExecutionState :=
  let (mem_index, stack) := stackPop state.stack
  let (input_index, stack) := stackPop stack
  let (size, stack) := stackPop stack
  let state := { state with stack }
  match verify_memory_region state mem_index size with
  | .error _ => .error .OutOfGas
  | .ok (none, st) => .ok st
  | .ok (some region, st) =>
    let copy_cost : Int := num_words region.size * 3
    let g := st.gas_left - copy_cost
    if g < 0 then .error .OutOfGas
    else
      let st := { st with gas_left := g }
      let input_len := st.message.input_data.length
      let src := min input_len input_index
      let copy_size := min size (input_len - src)
      let mem1 :=
        if copy_size > 0 then
          memWrite st.memory region.offset (memSlice st.message.input_data src copy_size)
        else st.memory
      let mem2 :=
        if region.size - copy_size > 0 then
          memWrite mem1 (region.offset + copy_size) (List.replicate (region.size - copy_size) 0)
        else mem1
      .ok { st with memory := mem2 }

/-- keccak256 (src/instructions/memory.rs lines 154-176): the digest function
itself comes from the external sha3 crate and is taken from the host record. -/
def keccak256 (h : EvmHost) (state : ExecutionState) : Except StatusCode ExecutionState :=
  let (index, stack) := stackPop state.stack
  let (size, stack) := stackPop stack
  let state := { state with stack }
  match verify_memory_region state index size with
  | .error _ => .error .OutOfGas
  | .ok (none, st) => .ok { st with stack := h.keccak256 [] % U256L :: st.stack }
  | .ok (some region, st) =>
    let w := num_words region.size
    let cost : Int := w * 6
    let g := st.gas_left - cost
    if g < 0 then .error .OutOfGas
    else
      let digest := h.keccak256 (memSlice st.memory region.offset region.size) % U256L
      .ok { st with gas_left := g, stack := digest :: st.stack }

/-- codesize (src/instructions/memory.rs lines 178-180). -/
def codesize (state : ExecutionState) (code : List Nat) : ExecutionState :=
  { state with stack := code.length :: state.stack }

/-- codecopy (src/instructions/memory.rs lines 182-213). -/
def codecopy (state : ExecutionState) (code : List Nat) : Except StatusCode ExecutionState :=
  let (mem_index, stack) := stackPop state.stack
  let (input_index, stack) := stackPop stack
  let (size, stack) := stackPop stack
  let state := { state with stack }
  match verify_memory_region state mem_index size with
  | .error _ => .error .OutOfGas
  | .ok (none, st) => .ok st
  | .ok (some region, st) =>
    let src := min code.length input_index
    let copy_size := min region.size (code.length - src)
    let copy_cost : Int := num_words region.size * 3
    let g := st.gas_left - copy_cost
    if g < 0 then .error .OutOfGas
    else
      let st := { st with gas_left := g }
      let mem1 :=
        if copy_size > 0 then memWrite st.memory region.offset (memSlice code src copy_size)
        else st.memory
      let mem2 :=
        if region.size - copy_size > 0 then
          memWrite mem1 (region.offset + copy_size) (List.replicate (region.size - copy_size) 0)
        else mem1
      .ok { st with memory := mem2 }

/-- returndatasize (src/instructions/memory.rs lines 284-286). -/
def returndatasize (state : ExecutionState) : ExecutionState :=
  { state with stack := state.return_data.length :: state.stack }

/-- returndatacopy (src/instructions/memory.rs lines 288-316): the
out-of-buffer checks sit after region verification (which charges any
expansion gas) and before the per-word copy charge. -/
def returndatacopy (state : ExecutionState) : Except StatusCode ExecutionState :=
  let (mem_index, stack) := stackPop state.stack
  let (input_index, stack) := stackPop stack
  let (size, stack) := stackPop stack
  let state := { state with stack }
  match verify_memory_region state mem_index size with
  | .error _ => .error .OutOfGas
  | .ok (regionOpt, st) =>
    if input_index > st.return_data.length then .error .InvalidMemoryAccess
    else
      let src := input_index
      if src + (regionOpt.map (fun r => r.size)).getD 0 > st.return_data.length then
        .error .InvalidMemoryAccess
      else
        match regionOpt with
        | none => .ok st
        | some region =>
          let copy_cost : Int := num_words region.size * 3
          let g := st.gas_left - copy_cost
          if g < 0 then .error .OutOfGas
          else
            let mem := memWrite st.memory region.offset (memSlice st.return_data src region.size)
            .ok { st with gas_left := g, memory := mem }

/-- ret, shared by RETURN and REVERT (src/instructions/control.rs lines
5-20): copy the memory region into output_data. -/
def ret (state : ExecutionState) : Except StatusCode ExecutionState :=
  let offset := stackGet state.stack 0
  let size := stackGet state.stack 1
  match verify_memory_region state offset size with
  | .error _ => .error .OutOfGas
  | .ok (some region, st) =>
    .ok { st with output_data := memSlice st.memory region.offset region.size }
  | .ok (none, st) => .ok st

/-- JumpdestMap::contains (src/interpreter.rs lines 42-46). -/
def jumpdestContains (jm : List Bool) (dst : Nat) : Bool :=
  decide (dst < jm.length) && jm.getD dst false

/-- op_jump (src/instructions/control.rs lines 22-32). -/
def op_jump (state : ExecutionState) (jm : List Bool) :
    Except StatusCode (Nat × ExecutionState) :=
  let (dst, stack) := stackPop state.stack
  if jumpdestContains jm dst then .ok (dst, { state with stack })
  else .error .BadJumpDestination

/-! External-state handlers (src/instructions/external.rs). Each returns the
state (or a terminating status) together with the ordered list of
suspensions it yields. -/

/-- Result of a handler that may suspend: outcome plus emitted suspensions. -/
abbrev HandlerResult := (Except StatusCode ExecutionState) × List Event

/-- address (src/instructions/external.rs lines 16-18). -/
def address_op (state : ExecutionState) : ExecutionState :=
  { state with stack := address_to_u256 state.message.destination :: state.stack }

/-- caller (src/instructions/external.rs lines 20-22). -/
def caller_op (state : ExecutionState) : ExecutionState :=
  { state with stack := address_to_u256 state.message.sender :: state.stack }

/-- callvalue (src/instructions/external.rs lines 24-26). -/
def callvalue_op (state : ExecutionState) : ExecutionState :=
  { state with stack := state.message.value :: state.stack }

/-- balance (src/instructions/external.rs lines 28-56): Berlin cold-account
surcharge, then a GetBalance suspension. -/
def balance_op (h : EvmHost) (state : ExecutionState) : HandlerResult :=
  let (addrW, stack) := stackPop state.stack
  let address := u256_to_address addrW
  let state := { state with stack }
  if state.evm_revision.atLeast .Berlin then
    let evs := [Event.AccessAccount address]
    if h.access_account address = .Cold then
      let state :=
        { state with gas_left := state.gas_left - (ADDITIONAL_COLD_ACCOUNT_ACCESS_COST : Int) }
      if state.gas_left < 0 then (.error .OutOfGas, evs)
      else
        (.ok { state with stack := h.get_balance address % U256L :: state.stack },
          evs ++ [Event.GetBalance address])
    else
      (.ok { state with stack := h.get_balance address % U256L :: state.stack },
        evs ++ [Event.GetBalance address])
  else
    (.ok { state with stack := h.get_balance address % U256L :: state.stack },
      [Event.GetBalance address])

/-- extcodesize (src/instructions/external.rs lines 58-86). -/
def extcodesize_op (h : EvmHost) (state : ExecutionState) : HandlerResult :=
  let (addrW, stack) := stackPop state.stack
  let address := u256_to_address addrW
  let state := { state with stack }
  if state.evm_revision.atLeast .Berlin then
    let evs := [Event.AccessAccount address]
    if h.access_account address = .Cold then
      let state :=
        { state with gas_left := state.gas_left - (ADDITIONAL_COLD_ACCOUNT_ACCESS_COST : Int) }
      if state.gas_left < 0 then (.error .OutOfGas, evs)
      else
        (.ok { state with stack := h.get_code_size address % U256L :: state.stack },
          evs ++ [Event.GetCodeSize address])
    else
      (.ok { state with stack := h.get_code_size address % U256L :: state.stack },
        evs ++ [Event.GetCodeSize address])
  else
    (.ok { state with stack := h.get_code_size address % U256L :: state.stack },
      [Event.GetCodeSize address])

/-- extcodehash (extcodehash! macro in src/instructions/memory.rs lines
318-360). -/
def extcodehash_op (h : EvmHost) (state : ExecutionState) : HandlerResult :=
  let (addrW, stack) := stackPop state.stack
  let address := u256_to_address addrW
  let state := { state with stack }
  if state.evm_revision.atLeast .Berlin then
    let evs := [Event.AccessAccount address]
    if h.access_account address = .Cold then
      let state :=
        { state with gas_left := state.gas_left - (ADDITIONAL_COLD_ACCOUNT_ACCESS_COST : Int) }
      if state.gas_left < 0 then (.error .OutOfGas, evs)
      else
        (.ok { state with stack := h.get_code_hash address % U256L :: state.stack },
          evs ++ [Event.GetCodeHash address])
    else
      (.ok { state with stack := h.get_code_hash address % U256L :: state.stack },
        evs ++ [Event.GetCodeHash address])
  else
    (.ok { state with stack := h.get_code_hash address % U256L :: state.stack },
      [Event.GetCodeHash address])

/-- extcodecopy (extcodecopy! macro in src/instructions/memory.rs lines
215-282). The reply code is truncated to the requested buffer size, which is
how run_to_completion_with_host2 materialises the CopyCode reply. -/
def extcodecopy_op (h : EvmHost) (state : ExecutionState) : HandlerResult :=
  let (addrW, stack) := stackPop state.stack
  let addr := u256_to_address addrW
  let (mem_index, stack) := stackPop stack
  let (input_index, stack) := stackPop stack
  let (size, stack) := stackPop stack
  let state := { state with stack }
  match verify_memory_region state mem_index size with
  | .error _ => (.error .OutOfGas, [])
  | .ok (regionOpt, st) =>
    let chargeStep : Except StatusCode ExecutionState :=
      match regionOpt with
      | some region =>
        let copy_cost : Int := num_words region.size * 3
        let st := { st with gas_left := st.gas_left - copy_cost }
        if st.gas_left < 0 then .error .OutOfGas else .ok st
      | none => .ok st
    match chargeStep with
    | .error sc => (.error sc, [])
    | .ok st =>
      let berlinStep : (Except StatusCode ExecutionState) × List Event :=
        if st.evm_revision.atLeast .Berlin then
          let evs := [Event.AccessAccount addr]
          if h.access_account addr = .Cold then
            let st :=
              { st with gas_left := st.gas_left - (ADDITIONAL_COLD_ACCOUNT_ACCESS_COST : Int) }
            if st.gas_left < 0 then (.error .OutOfGas, evs) else (.ok st, evs)
          else (.ok st, evs)
        else (.ok st, [])
      match berlinStep with
      | (.error sc, evs) => (.error sc, evs)
      | (.ok st, evs) =>
        match regionOpt with
        | none => (.ok st, evs)
        | some region =>
          let src := min MAX_BUFFER_SIZE input_index
          let code := (h.copy_code addr src region.size).take region.size
          let evs := evs ++ [Event.CopyCode addr src region.size]
          let mem1 := memWrite st.memory region.offset code
          let mem2 :=
            if region.size - code.length > 0 then
              memWrite mem1 (region.offset + code.length)
                (List.replicate (region.size - code.length) 0)
            else mem1
          (.ok { st with memory := mem2 }, evs)

/-- push_txcontext (src/interpreter.rs push_txcontext! together with the
accessor functions of src/instructions/external.rs). -/
def push_txcontext (h : EvmHost) (state : ExecutionState) (accessor : TxContext → Nat) :
    ExecutionState × List Event :=
  ({ state with stack := accessor h.get_tx_context :: state.stack }, [Event.GetTxContext])

/-- origin accessor (src/instructions/external.rs lines 99-108). -/
def origin_accessor (c : TxContext) : Nat := address_to_u256 c.tx_origin

/-- coinbase accessor (src/instructions/external.rs lines 110-119). -/
def coinbase_accessor (c : TxContext) : Nat := address_to_u256 c.block_coinbase

/-- gasprice accessor (src/instructions/external.rs lines 88-97). -/
def gasprice_accessor (c : TxContext) : Nat := c.tx_gas_price

/-- timestamp accessor (src/instructions/external.rs lines 132-141). -/
def timestamp_accessor (c : TxContext) : Nat := c.block_timestamp

/-- number accessor (src/instructions/external.rs lines 121-130). -/
def number_accessor (c : TxContext) : Nat := c.block_number

/-- difficulty accessor (src/instructions/external.rs lines 154-163). -/
def difficulty_accessor (c : TxContext) : Nat := c.block_difficulty

/-- gaslimit accessor (src/instructions/external.rs lines 143-152). -/
def gaslimit_accessor (c : TxContext) : Nat := c.block_gas_limit

/-- chainid accessor (src/instructions/external.rs lines 165-174). -/
def chainid_accessor (c : TxContext) : Nat := c.chain_id

/-- basefee accessor (src/instructions/external.rs lines 176-185). -/
def basefee_accessor (c : TxContext) : Nat := c.block_base_fee

/-- selfbalance (src/instructions/external.rs lines 187-199). -/
def selfbalance_op (h : EvmHost) (state : ExecutionState) : ExecutionState × List Event :=
  ({ state with stack := h.get_balance state.message.destination % U256L :: state.stack },
    [Event.GetBalance state.message.destination])

/-- blockhash (src/instructions/external.rs lines 201-226). -/
def blockhash_op (h : EvmHost) (state : ExecutionState) : ExecutionState × List Event :=
  let (number, stack) := stackPop state.stack
  let state := { state with stack }
  let upper_bound := h.get_tx_context.block_number
  let lower_bound := upper_bound - 256
  if number ≤ 18446744073709551615 ∧ lower_bound ≤ number ∧ number < upper_bound then
    ({ state with stack := h.get_block_hash number % U256L :: state.stack },
      [Event.GetTxContext, Event.GetBlockHash number])
  else ({ state with stack := 0 :: state.stack }, [Event.GetTxContext])

/-- log (src/instructions/external.rs lines 228-278). The byte-cost branch
reproduces the source exactly: the post-debit test reads the cost, not the
remaining gas. -/
def do_log (h : EvmHost) (state : ExecutionState) (num_topics : Nat) : HandlerResult :=
  if state.message.is_static then (.error .StaticModeViolation, [])
  else
    let (offset, stack) := stackPop state.stack
    let (size, stack) := stackPop stack
    let state := { state with stack }
    match verify_memory_region state offset size with
    | .error _ => (.error .OutOfGas, [])
    | .ok (regionOpt, st) =>
      let chargeStep : Except StatusCode ExecutionState :=
        match regionOpt with
        | some region =>
          let cost : Int := region.size * 8
          let st := { st with gas_left := st.gas_left - cost }
          if cost < 0 then .error .OutOfGas else .ok st
        | none => .ok st
      match chargeStep with
      | .error sc => (.error sc, [])
      | .ok st =>
        let topics := st.stack.take num_topics
        let st := { st with stack := st.stack.drop num_topics }
        let data :=
          match regionOpt with
          | some region => memSlice st.memory region.offset region.size
          | none => []
        let _ := h
        (.ok st, [Event.EmitLog st.message.destination data topics])

/-- sload (src/instructions/external.rs lines 280-318). -/
def sload_op (h : EvmHost) (state : ExecutionState) : HandlerResult :=
  let (key, stack) := stackPop state.stack
  let state := { state with stack }
  let me := state.message.destination
  if state.evm_revision.atLeast .Berlin then
    let evs := [Event.AccessStorage me key]
    if h.access_storage me key = .Cold then
      let add : Int := (COLD_SLOAD_COST - WARM_STORAGE_READ_COST : Nat)
      let state := { state with gas_left := state.gas_left - add }
      if state.gas_left < 0 then (.error .OutOfGas, evs)
      else
        (.ok { state with stack := h.get_storage me key % U256L :: state.stack },
          evs ++ [Event.GetStorage me key])
    else
      (.ok { state with stack := h.get_storage me key % U256L :: state.stack },
        evs ++ [Event.GetStorage me key])
  else
    (.ok { state with stack := h.get_storage me key % U256L :: state.stack },
      [Event.GetStorage me key])

/-- The status-dependent SSTORE charge: the match over StorageStatus in
src/instructions/external.rs lines 360-380, with cost0 the cold-access
pre-charge accumulated earlier in the handler. -/
def sstore_status_cost (rev : Revision) (cost0 : Nat) (status : StorageStatus) : Nat :=
  match status with
  | .Unchanged | .ModifiedAgain =>
    if rev.atLeast .Berlin then cost0 + WARM_STORAGE_READ_COST
    else if rev = .Istanbul then 800
    else if rev = .Constantinople then 200
    else 5000
  | .Modified | .Deleted =>
    if rev.atLeast .Berlin then cost0 + 5000 - COLD_SLOAD_COST
    else 5000
  | .Added => cost0 + 20000

/-- sstore (src/instructions/external.rs lines 320-387). -/
def sstore_op (h : EvmHost) (state : ExecutionState) : HandlerResult :=
  if state.message.is_static then (.error .StaticModeViolation, [])
  else if state.evm_revision.atLeast .Istanbul ∧ state.gas_left ≤ 2300 then
    (.error .OutOfGas, [])
  else
    let (key, stack) := stackPop state.stack
    let (value, stack) := stackPop stack
    let state := { state with stack }
    let me := state.message.destination
    let accessPart : Nat × List Event :=
      if state.evm_revision.atLeast .Berlin then
        (if h.access_storage me key = .Cold then COLD_SLOAD_COST else 0,
          [Event.AccessStorage me key])
      else (0, [])
    let cost0 := accessPart.1
    let status := h.set_storage me key value
    let evs := accessPart.2 ++ [Event.SetStorage me key value]
    let cost : Nat := sstore_status_cost state.evm_revision cost0 status
    let state := { state with gas_left := state.gas_left - (cost : Int) }
    if state.gas_left < 0 then (.error .OutOfGas, evs)
    else (.ok state, evs)

/-- selfdestruct (src/instructions/external.rs lines 389-460). -/
def selfdestruct_op (h : EvmHost) (state : ExecutionState) : HandlerResult :=
  if state.message.is_static then (.error .StaticModeViolation, [])
  else
    let (benW, stack) := stackPop state.stack
    let beneficiary := u256_to_address benW
    let state := { state with stack }
    let berlinStep : (Except StatusCode ExecutionState) × List Event :=
      if state.evm_revision.atLeast .Berlin then
        let evs := [Event.AccessAccount beneficiary]
        if h.access_account beneficiary = .Cold then
          let st := { state with gas_left := state.gas_left - (COLD_ACCOUNT_ACCESS_COST : Int) }
          if st.gas_left < 0 then (.error .OutOfGas, evs) else (.ok st, evs)
        else (.ok state, evs)
      else (.ok state, [])
    match berlinStep with
    | (.error sc, evs) => (.error sc, evs)
    | (.ok state, evs) =>
      let me := state.message.destination
      if state.evm_revision.atLeast .Tangerine then
        let condPart : Bool × List Event :=
          if state.evm_revision = .Tangerine then (true, [])
          else (h.get_balance me ≠ 0, [Event.GetBalance me])
        let evs := evs ++ condPart.2
        if condPart.1 then
          let evs := evs ++ [Event.AccountExists beneficiary]
          if h.account_exists beneficiary = false then
            let state := { state with gas_left := state.gas_left - 25000 }
            if state.gas_left < 0 then (.error .OutOfGas, evs)
            else (.ok state, evs ++ [Event.Selfdestruct me beneficiary])
          else (.ok state, evs ++ [Event.Selfdestruct me beneficiary])
        else (.ok state, evs ++ [Event.Selfdestruct me beneficiary])
      else (.ok state, evs ++ [Event.Selfdestruct me beneficiary])

/-! The call family (do_call! macro, src/instructions/call.rs lines 1-155)
and CREATE/CREATE2 (do_create! macro, lines 157-251), split into stages
exactly following the source order. -/

/-- Nested-call execution step of do_call (src/instructions/call.rs lines
129-152): suspend Call, record return data and success flag, copy the output
region, charge the gas the callee consumed. -/
def do_call_execute (h : EvmHost) (state : ExecutionState) (msg : Message)
    (output_region : Option MemoryRegion) (evs : List Event) : HandlerResult :=
  let msg_gas := msg.gas
  let result := h.call msg
  let evs := evs ++ [Event.Call msg]
  let state := { state with return_data := result.output_data }
  let state :=
    { state with
        stack := state.stack.set 0 (if result.status_code = StatusCode.Success then 1 else 0) }
  let state :=
    match output_region with
    | some r =>
      let copy_size := min r.size result.output_data.length
      if copy_size > 0 then
        { state with memory := memWrite state.memory r.offset (result.output_data.take copy_size) }
      else state
    | none => state
  let gas_used := msg_gas - result.gas_left
  (.ok { state with gas_left := state.gas_left - gas_used }, evs)

/-- The nested Message a call-family instruction builds
(src/instructions/call.rs lines 51-72): depth + 1, static flag inherited,
sender and value per kind, input copied from the verified memory region. -/
def call_nested_message (state : ExecutionState) (kind : CallKind) (is_static : Bool)
    (dst value : Nat) (input_region : Option MemoryRegion) : Message :=
  { kind := kind
    is_static := is_static || state.message.is_static
    depth := state.message.depth + 1
    destination := dst
    sender :=
      if kind = CallKind.DelegateCall then state.message.sender
      else state.message.destination
    gas := I64_MAX
    value := if kind = CallKind.DelegateCall then state.message.value else value
    input_data :=
      match input_region with
      | some r => memSlice state.memory r.offset r.size
      | none => [] }

/-- Tail of do_call after operand decoding and the Berlin account-access step
(src/instructions/call.rs lines 46-154). -/
def do_call_rest (h : EvmHost) (state : ExecutionState) (kind : CallKind) (is_static : Bool)
    (gas dst value input_offset input_size output_offset output_size : Nat)
    (evs : List Event) : HandlerResult :=
  let has_value := value ≠ 0
  match verify_memory_region state input_offset input_size with
  | .error _ => (.error .OutOfGas, evs)
  | .ok (input_region, state) =>
    match verify_memory_region state output_offset output_size with
    | .error _ => (.error .OutOfGas, evs)
    | .ok (output_region, state) =>
      let msg : Message := call_nested_message state kind is_static dst value input_region
      let cost0 : Int := if has_value then 9000 else 0
      if kind = CallKind.Call ∧ has_value ∧ state.message.is_static then
        (.error .StaticModeViolation, evs)
      else
        let needExists :=
          kind = CallKind.Call ∧ (has_value ∨ ¬ state.evm_revision.atLeast .Spurious)
        let evs := if needExists then evs ++ [Event.AccountExists dst] else evs
        let cost : Int :=
          if needExists ∧ h.account_exists dst = false then cost0 + 25000 else cost0
        let state := { state with gas_left := state.gas_left - cost }
        if state.gas_left < (0 : Int) then ((.error .OutOfGas, evs) : HandlerResult)
        else
          let msg := if gas < I64_MAX.toNat then { msg with gas := (gas : Int) } else msg
          let capStep : Except Unit Message :=
            if state.evm_revision.atLeast .Tangerine then
              .ok { msg with gas := min msg.gas (state.gas_left - Int.tdiv state.gas_left 64) }
            else if msg.gas > state.gas_left then .error ()
            else .ok msg
          match capStep with
          | .error _ => (.error .OutOfGas, evs)
          | .ok msg =>
            let msg := if has_value then { msg with gas := msg.gas + 2300 } else msg
            let state :=
              if has_value then { state with gas_left := state.gas_left + 2300 } else state
            let state := { state with return_data := [] }
            if state.message.depth < 1024 then
              if has_value then
                let evs := evs ++ [Event.GetBalance state.message.destination]
                if h.get_balance state.message.destination < value then (.ok state, evs)
                else do_call_execute h state msg output_region evs
              else do_call_execute h state msg output_region evs
            else (.ok state, evs)

/-- do_call (src/instructions/call.rs lines 1-155): operand decoding, the
provisional failure push and the Berlin account-access step. -/
def do_call (h : EvmHost) (st0 : ExecutionState) (kind : CallKind) (is_static : Bool) :
    HandlerResult :=
  let (gas, stack) := stackPop st0.stack
  let (dstW, stack) := stackPop stack
  let dst := u256_to_address dstW
  let valuePart :=
    if is_static || kind = CallKind.DelegateCall then ((0 : Nat), stack) else stackPop stack
  let value := valuePart.1
  let stack := valuePart.2
  let (input_offset, stack) := stackPop stack
  let (input_size, stack) := stackPop stack
  let (output_offset, stack) := stackPop stack
  let (output_size, stack) := stackPop stack
  let state := { st0 with stack := 0 :: stack }
  if state.evm_revision.atLeast .Berlin then
    let evs := [Event.AccessAccount dst]
    if h.access_account dst = .Cold then
      let state :=
        { state with gas_left := state.gas_left - (ADDITIONAL_COLD_ACCOUNT_ACCESS_COST : Int) }
      if state.gas_left < 0 then (.error .OutOfGas, evs)
      else
        do_call_rest h state kind is_static gas dst value input_offset input_size output_offset
          output_size evs
    else
      do_call_rest h state kind is_static gas dst value input_offset input_size output_offset
        output_size evs
  else
    do_call_rest h state kind is_static gas dst value input_offset input_size output_offset
      output_size []

/-- The nested Message CREATE/CREATE2 builds (src/instructions/call.rs lines
212-234): all but one 64th of the remaining gas from Tangerine on, the init
code from memory, the endowment as value. -/
def create_nested_message (state : ExecutionState) (call_kind : CallKind)
    (endowment init_code_offset init_code_size : Nat) : Message :=
  { gas :=
      if state.evm_revision.atLeast .Tangerine then
        state.gas_left - Int.tdiv state.gas_left 64
      else state.gas_left
    is_static := false
    destination := 0
    kind := call_kind
    input_data :=
      if init_code_size ≠ 0 then memSlice state.memory init_code_offset init_code_size
      else []
    sender := state.message.destination
    depth := state.message.depth + 1
    value := endowment }

/-- Nested-creation step of do_create (src/instructions/call.rs lines
212-248). The source unwraps create_address on success with expect; an
honest host always supplies it, the default 0 stands for that unreachable
panic. -/
def do_create_execute (h : EvmHost) (state : ExecutionState) (call_kind : CallKind)
    (endowment init_code_offset init_code_size : Nat) (evs : List Event) : HandlerResult :=
  let msg : Message :=
    create_nested_message state call_kind endowment init_code_offset init_code_size
  let msg_gas := msg.gas
  let result := h.call msg
  let evs := evs ++ [Event.Call msg]
  let state := { state with gas_left := state.gas_left - (msg_gas - result.gas_left) }
  let state := { state with return_data := result.output_data }
  let state :=
    if result.status_code = .Success then
      { state with stack := state.stack.set 0 (address_to_u256 (result.create_address.getD 0)) }
    else state
  (.ok state, evs)

/-- do_create (src/instructions/call.rs lines 157-251). -/
def do_create (h : EvmHost) (st0 : ExecutionState) (create2 : Bool) : HandlerResult :=
  if st0.message.is_static then (.error .StaticModeViolation, [])
  else
    let (endowment, stack) := stackPop st0.stack
    let (init_code_offset, stack) := stackPop stack
    let (init_code_size, stack) := stackPop stack
    let state := { st0 with stack }
    match verify_memory_region state init_code_offset init_code_size with
    | .error _ => (.error .OutOfGas, [])
    | .ok (region, state) =>
      let saltStep : Except StatusCode (CallKind × ExecutionState) :=
        if create2 then
          let (salt, stack) := stackPop state.stack
          let state := { state with stack }
          match region with
          | some r =>
            let salt_cost : Int := num_words r.size * 6
            let state := { state with gas_left := state.gas_left - salt_cost }
            if state.gas_left < 0 then .error .OutOfGas
            else .ok (CallKind.Create2 salt, state)
          | none => .ok (CallKind.Create2 salt, state)
        else .ok (CallKind.Create, state)
      match saltStep with
      | .error sc => (.error sc, [])
      | .ok (call_kind, state) =>
        let state := { state with stack := 0 :: state.stack, return_data := [] }
        if state.message.depth < 1024 then
          if endowment ≠ 0 then
            let evs := [Event.GetBalance state.message.destination]
            if h.get_balance state.message.destination < endowment then (.ok state, evs)
            else
              do_create_execute h state call_kind endowment init_code_offset init_code_size evs
          else do_create_execute h state call_kind endowment init_code_offset init_code_size []
        else (.ok state, [])

/-! The bytecode analyzer (AnalyzedCode::analyze, src/interpreter.rs lines
56-121). -/

/-- Cursor advance for one scanned opcode: JUMPDEST and ordinary opcodes
advance by 1, PUSH1..PUSH32 (0x60..0x7f) skip their immediate bytes. -/
def opus (opcode : Nat) : Nat :=
  if opcode = 0x5b then 1
  else if 0x60 ≤ opcode ∧ opcode ≤ 0x7f then opcode - 0x60 + 2
  else 1

theorem opus_pos (opcode : Nat) : 1 ≤ opus opcode := by
  unfold opus
  split
  · omega
  · split <;> omega

/-- The analyzer loop (src/interpreter.rs lines 62-104): mark JUMPDEST bytes
at scan positions, skip PUSH immediates; returns the map and the final
cursor. The extra fuel argument only bounds the structural recursion: the
cursor advances at least one byte per iteration, so fuel code.length - i is
always sufficient and the fuel-exhausted base case is unreachable from
analyze (scanLoop_fuel_stable below). -/
def scanLoop (code : List Nat) : Nat → Nat → List Bool → List Bool × Nat
  | 0, i, m => (m, i)
  | fuel + 1, i, m =>
    if i < code.length then
      let opcode := code.getD i 0
      scanLoop code fuel (i + opus opcode) (if opcode = 0x5b then m.set i true else m)
    else (m, i)

/-- Any fuel at least code.length - i computes the same scan result, so the
fuel bound is semantically invisible. -/
theorem scanLoop_fuel_stable (code : List Nat) (fuel i : Nat) (m : List Bool)
    (hf : code.length ≤ i + fuel) :
    scanLoop code (fuel + 1) i m = scanLoop code fuel i m := by
  induction fuel generalizing i m with
  | zero =>
    rw [scanLoop, scanLoop, if_neg (by omega)]
  | succ fuel ih =>
    rw [scanLoop]
    conv_rhs => rw [scanLoop]
    by_cases hi : i < code.length
    · rw [if_pos hi, if_pos hi]
      exact ih _ _ (by have := opus_pos (code.getD i 0); omega)
    · rw [if_neg hi, if_neg hi]

/-- Code with analysis (AnalyzedCode, src/interpreter.rs lines 49-54). -/
structure AnalyzedCode where
  jumpdest_map : List Bool
  code : List Nat
  padded_code : List Nat
deriving DecidableEq, Repr

/-- AnalyzedCode::analyze (src/interpreter.rs lines 56-121): run the scan
from cursor 0 over an all-false map, then pad the code with STOP bytes up to
final cursor + 1. -/
def analyze (code : List Nat) : AnalyzedCode :=
  let scan := scanLoop code code.length 0 (List.replicate code.length false)
  { jumpdest_map := scan.1
    code := code
    padded_code := code ++ List.replicate (scan.2 + 1 - code.length) 0 }

/-! The interpreter loop (interpreter_producer, src/interpreter.rs lines
300-650), decomposed into a single-instruction step and a fueled loop. -/

/-- Result of one instruction: continue at a program counter, leave the loop
(RETURN/REVERT/STOP/SELFDESTRUCT), or terminate with a status code. -/
inductive StepRes where
  | cont (pc : Nat) (st : ExecutionState)
  | brk (reverted : Bool) (st : ExecutionState)
  | err (sc : StatusCode)
deriving DecidableEq, Repr

/-- Lift a stack-only handler into the state. -/
def pureStack (state : ExecutionState) (f : List Nat → List Nat) : ExecutionState :=
  { state with stack := f state.stack }

/-- Lift a fallible handler outcome into a step result (Continue advances the
program counter by 1; errors abort the frame). -/
def fromExcept (pc : Nat) (r : Except StatusCode ExecutionState) : StepRes :=
  match r with
  | .error sc => .err sc
  | .ok st => .cont (pc + 1) st

/-- Lift a suspending handler outcome into a step result with its events. -/
def fromHandler (pc : Nat) (r : HandlerResult) : StepRes × List Event :=
  match r.1 with
  | .error sc => (.err sc, r.2)
  | .ok st => (.cont (pc + 1) st, r.2)

/-- One iteration of the interpreter loop (src/interpreter.rs lines 319-640):
fetch from padded code, check requirements, dispatch. Tracing is disabled, so
no InstructionStart suspension is yielded. -/
def step (h : EvmHost) (s : AnalyzedCode) (rev : Revision) (pc : Nat) (st0 : ExecutionState) :
    StepRes × List Event :=
  let op := s.padded_code.getD pc 0
  match check_requirements rev st0 op with
  | .error sc => (.err sc, [])
  | .ok state =>
    match op with
    | 0x00 => (.brk false state, [])
    | 0x01 => (.cont (pc + 1) (pureStack state arith_add), [])
    | 0x02 => (.cont (pc + 1) (pureStack state arith_mul), [])
    | 0x03 => (.cont (pc + 1) (pureStack state arith_sub), [])
    | 0x04 => (.cont (pc + 1) (pureStack state arith_div), [])
    | 0x05 => (.cont (pc + 1) (pureStack state arith_sdiv), [])
    | 0x06 => (.cont (pc + 1) (pureStack state arith_mod), [])
    | 0x07 => (.cont (pc + 1) (pureStack state arith_smod), [])
    | 0x08 => (.cont (pc + 1) (pureStack state arith_addmod), [])
    | 0x09 => (.cont (pc + 1) (pureStack state arith_mulmod), [])
    | 0x0a => (fromExcept pc (arith_exp state), [])
    | 0x0b => (.cont (pc + 1) (pureStack state arith_signextend), [])
    | 0x10 => (.cont (pc + 1) (pureStack state bool_lt), [])
    | 0x11 => (.cont (pc + 1) (pureStack state bool_gt), [])
    | 0x12 => (.cont (pc + 1) (pureStack state bool_slt), [])
    | 0x13 => (.cont (pc + 1) (pureStack state bool_sgt), [])
    | 0x14 => (.cont (pc + 1) (pureStack state bool_eq), [])
    | 0x15 => (.cont (pc + 1) (pureStack state bool_iszero), [])
    | 0x16 => (.cont (pc + 1) (pureStack state bool_and), [])
    | 0x17 => (.cont (pc + 1) (pureStack state bool_or), [])
    | 0x18 => (.cont (pc + 1) (pureStack state bool_xor), [])
    | 0x19 => (.cont (pc + 1) (pureStack state bool_not), [])
    | 0x1a => (.cont (pc + 1) (pureStack state bitwise_byte), [])
    | 0x1b => (.cont (pc + 1) (pureStack state bitwise_shl), [])
    | 0x1c => (.cont (pc + 1) (pureStack state bitwise_shr), [])
    | 0x1d => (.cont (pc + 1) (pureStack state bitwise_sar), [])
    | 0x20 => (fromExcept pc (keccak256 h state), [])
    | 0x30 => (.cont (pc + 1) (address_op state), [])
    | 0x31 => fromHandler pc (balance_op h state)
    | 0x32 =>
      let r := push_txcontext h state origin_accessor
      (.cont (pc + 1) r.1, r.2)
    | 0x33 => (.cont (pc + 1) (caller_op state), [])
    | 0x34 => (.cont (pc + 1) (callvalue_op state), [])
    | 0x35 => (.cont (pc + 1) (calldataload state), [])
    | 0x36 => (.cont (pc + 1) (calldatasize state), [])
    | 0x37 => (fromExcept pc (calldatacopy state), [])
    | 0x38 => (.cont (pc + 1) (codesize state s.code), [])
    | 0x39 => (fromExcept pc (codecopy state s.code), [])
    | 0x3a =>
      let r := push_txcontext h state gasprice_accessor
      (.cont (pc + 1) r.1, r.2)
    | 0x3b => fromHandler pc (extcodesize_op h state)
    | 0x3c => fromHandler pc (extcodecopy_op h state)
    | 0x3d => (.cont (pc + 1) (returndatasize state), [])
    | 0x3e => (fromExcept pc (returndatacopy state), [])
    | 0x3f => fromHandler pc (extcodehash_op h state)
    | 0x40 =>
      let r := blockhash_op h state
      (.cont (pc + 1) r.1, r.2)
    | 0x41 =>
      let r := push_txcontext h state coinbase_accessor
      (.cont (pc + 1) r.1, r.2)
    | 0x42 =>
      let r := push_txcontext h state timestamp_accessor
      (.cont (pc + 1) r.1, r.2)
    | 0x43 =>
      let r := push_txcontext h state number_accessor
      (.cont (pc + 1) r.1, r.2)
    | 0x44 =>
      let r := push_txcontext h state difficulty_accessor
      (.cont (pc + 1) r.1, r.2)
    | 0x45 =>
      let r := push_txcontext h state gaslimit_accessor
      (.cont (pc + 1) r.1, r.2)
    | 0x46 =>
      let r := push_txcontext h state chainid_accessor
      (.cont (pc + 1) r.1, r.2)
    | 0x47 =>
      let r := selfbalance_op h state
      (.cont (pc + 1) r.1, r.2)
    | 0x48 =>
      let r := push_txcontext h state basefee_accessor
      (.cont (pc + 1) r.1, r.2)
    | 0x50 => (.cont (pc + 1) (pureStack state (fun st => (stackPop st).2)), [])
    | 0x51 => (fromExcept pc (mload state), [])
    | 0x52 => (fromExcept pc (mstore state), [])
    | 0x53 => (fromExcept pc (mstore8 state), [])
    | 0x54 => fromHandler pc (sload_op h state)
    | 0x55 => fromHandler pc (sstore_op h state)
    | 0x56 =>
      match op_jump state s.jumpdest_map with
      | .error sc => (.err sc, [])
      | .ok (dst, st) => (.cont dst st, [])
    | 0x57 =>
      if stackGet state.stack 1 ≠ 0 then
        match op_jump state s.jumpdest_map with
        | .error sc => (.err sc, [])
        | .ok (dst, st) => (.cont dst (pureStack st (fun stk => (stackPop stk).2)), [])
      else
        (.cont (pc + 1)
          (pureStack state (fun stk => (stackPop (stackPop stk).2).2)), [])
    | 0x58 => (.cont (pc + 1) { state with stack := pc :: state.stack }, [])
    | 0x59 => (.cont (pc + 1) (msize state), [])
    | 0x5a => (.cont (pc + 1) { state with stack := state.gas_left.toNat :: state.stack }, [])
    | 0x5b => (.cont (pc + 1) state, [])
    | 0xf0 =>
      match do_create h state false with
      | (.error sc, evs) => (.err sc, evs)
      | (.ok st, evs) => (.cont (pc + 1) st, evs)
    | 0xf5 =>
      match do_create h state true with
      | (.error sc, evs) => (.err sc, evs)
      | (.ok st, evs) => (.cont (pc + 1) st, evs)
    | 0xf1 => fromHandler pc (do_call h state CallKind.Call false)
    | 0xf2 => fromHandler pc (do_call h state CallKind.CallCode false)
    | 0xf4 => fromHandler pc (do_call h state CallKind.DelegateCall false)
    | 0xfa => fromHandler pc (do_call h state CallKind.Call true)
    | 0xf3 =>
      match ret state with
      | .error sc => (.err sc, [])
      | .ok st => (.brk false st, [])
    | 0xfd =>
      match ret state with
      | .error sc => (.err sc, [])
      | .ok st => (.brk true st, [])
    | 0xfe => (.err .InvalidInstruction, [])
    | 0xff =>
      match selfdestruct_op h state with
      | (.error sc, evs) => (.err sc, evs)
      | (.ok st, evs) => (.brk false st, evs)
    | other =>
      if 0x60 ≤ other ∧ other ≤ 0x7f then
        let n := other - 0x5f
        let value := pushValue (List.takeD n (s.padded_code.drop (pc + 1)) 0)
        (.cont (pc + 1 + n) { state with stack := value :: state.stack }, [])
      else if 0x80 ≤ other ∧ other ≤ 0x8f then
        (.cont (pc + 1) (pureStack state (fun st => stack_dup st (other - 0x7f))), [])
      else if 0x90 ≤ other ∧ other ≤ 0x9f then
        (.cont (pc + 1) (pureStack state (fun st => stackSwapTop st (other - 0x8f))), [])
      else if 0xa0 ≤ other ∧ other ≤ 0xa4 then
        fromHandler pc (do_log h state (other - 0xa0))
      else (.err (.InternalError "reached unhandled opcode"), [])

/-- The interpreter loop with fuel (the loop of interpreter_producer,
src/interpreter.rs lines 319-648): none means the fuel ran out before the
frame terminated; gas metering guarantees termination in the source. -/
def runLoop (h : EvmHost) (s : AnalyzedCode) (rev : Revision) :
    Nat → Nat → ExecutionState → Option (Except StatusCode SuccessfulOutput × List Event)
  | 0, _, _ => none
  | fuel + 1, pc, state =>
    match step h s rev pc state with
    | (.cont pc2 st2, evs) =>
      match runLoop h s rev fuel pc2 st2 with
      | none => none
      | some (r, evs2) => some (r, evs ++ evs2)
    | (.brk reverted st2, evs) =>
      some (.ok { reverted := reverted, gas_left := st2.gas_left,
                  output_data := st2.output_data }, evs)
    | (.err sc, evs) => some (.error sc, evs)

/-- The Complete arm of run_to_completion_with_host2 (src/interpreter.rs
lines 272-284). -/
def outputOfResult : Except StatusCode SuccessfulOutput → Output
  | .ok s => s.toOutput
  | .error sc =>
    { status_code := sc, gas_left := 0, output_data := [], create_address := none }

/-- AnalyzedCode::execute driven by run_to_completion_with_host
(src/interpreter.rs lines 124-145 and 192-298), with tracing disabled. -/
def executeAnalyzed (h : EvmHost) (s : AnalyzedCode) (message : Message) (rev : Revision)
    (fuel : Nat) : Option (Output × List Event) :=
  match runLoop h s rev fuel 0 (ExecutionState.new message rev) with
  | none => none
  | some (r, evs) => some (outputOfResult r, evs)

/-- analyze followed by execute: the public entry point used by the crate
documentation (src/lib.rs). -/
def execute (h : EvmHost) (code : List Nat) (message : Message) (rev : Revision)
    (fuel : Nat) : Option (Output × List Event) :=
  executeAnalyzed h (analyze code) message rev fuel

/-- A host whose nested-call replies never report more gas left than the
message granted (the proviso of the spec's gas-interval invariant). -/
def HostOk (h : EvmHost) : Prop := ∀ m : Message, (h.call m).gas_left ≤ m.gas

/-- The per-step gas invariant: a continuing state has spent gas relative to
the bound, a frame-leaving state additionally holds nonnegative gas, an error
carries no state. -/
def gasOk (g : Int) : StepRes → Prop
  | .cont _ st => st.gas_left ≤ g
  | .brk _ st => 0 ≤ st.gas_left ∧ st.gas_left ≤ g
  | .err _ => True

/-! Concrete fixtures used by witnesses and counterexamples. -/

/-- A minimal concrete host: every account exists and is warm, balances and
storage are zero, nested calls succeed returning all granted gas. -/
def zeroHost : EvmHost :=
  { account_exists := fun _ => true
    get_storage := fun _ _ => 0
    set_storage := fun _ _ _ => .Unchanged
    get_balance := fun _ => 0
    get_code_size := fun _ => 0
    get_code_hash := fun _ => 0
    copy_code := fun _ _ _ => []
    call := fun m =>
      { status_code := .Success, gas_left := m.gas, output_data := [], create_address := none }
    get_tx_context := ⟨0, 0, 0, 0, 0, 0, 0, 0, 0⟩
    get_block_hash := fun _ => 0
    access_account := fun _ => .Warm
    access_storage := fun _ _ => .Warm
    keccak256 := fun _ => 0 }

/-- A plain non-static message with 200 gas at depth 0 (the message of the
crate documentation example in src/lib.rs, with is_static := false). -/
def helloMessage : Message :=
  { kind := .Call, is_static := false, depth := 0, gas := 200,
    destination := 0, sender := 0, input_data := [], value := 0 }

/-- The literal bytecode of scenario E1: five MSTORE8 of the bytes of
"hello" followed by RETURN(0, 5). -/
def helloCode : List Nat :=
  [0x60, 0x68, 0x60, 0x00, 0x53, 0x60, 0x65, 0x60, 0x01, 0x53,
   0x60, 0x6C, 0x60, 0x02, 0x53, 0x60, 0x6C, 0x60, 0x03, 0x53,
   0x60, 0x6F, 0x60, 0x04, 0x53, 0x60, 0x05, 0x60, 0x00, 0xF3]

/-- Claim C9: executing the literal "hello" bytecode at the latest revision
with message gas 200 (non-static, depth 0) terminates with
Output of Success, gas_left 146, output_data "hello" and no create
address. -/
theorem C9_hello_end_to_end :
    (execute zeroHost helloCode helloMessage Revision.latest 40).map Prod.fst =
      some { status_code := .Success, gas_left := 146,
             output_data := [0x68, 0x65, 0x6c, 0x6c, 0x6f], create_address := none } := by
  decide

/-- The execution state for the C7 failing input: a LOG0 poised to hash 32
fresh memory bytes with only 10 gas left after the base charge. -/
def c7_state : ExecutionState :=
  { gas_left := 10, stack := [0, 32], memory := [],
    message := helloMessage, evm_revision := .London,
    return_data := [], output_data := [] }

/-- Claim C7: the 8*size byte cost of LOGn is debited before emission, but
when the debit drives gas_left negative the handler nevertheless emits the
log and returns success, because the guard in src/instructions/external.rs
line 253 tests the (always nonnegative) cost instead of the remaining gas:
at the failing input the handler ends with gas_left = -249 yet still
produces the EmitLog suspension. -/
theorem C7_log_emits_despite_negative_gas :
    do_log zeroHost c7_state 0 =
      (.ok { c7_state with gas_left := -249, stack := [], memory := List.replicate 32 0 },
       [Event.EmitLog 0 (List.replicate 32 0) []]) ∧
    (-249 : Int) < 0 := by
  decide

/-! Helper lemmas about memory-region verification, shared by several
claims. -/

theorem le_num_words_mul (n : Nat) : n ≤ num_words n * 32 := by
  unfold num_words
  have h := Nat.div_add_mod (n + 31) 32
  have h2 := Nat.mod_lt (n + 31) (show 0 < 32 by norm_num)
  omega

theorem memCost_mono {a b : Nat} (h : a ≤ b) :
    3 * a + a * a / 512 ≤ 3 * b + b * b / 512 := by
  have h2 : a * a / 512 ≤ b * b / 512 := Nat.div_le_div_right (Nat.mul_le_mul h h)
  omega

theorem listResize_length (l : List Nat) (n v : Nat) (h : l.length ≤ n) :
    (listResize l n v).length = n := by
  simp [listResize]
  omega

/-- Structural facts about a successful verify_memory_region_u64: the region
is the requested one, only gas and memory change, gas never increases, a
nonnegative gas stays nonnegative and memory never shrinks. -/
theorem verify_u64_ok_shape {st : ExecutionState} {off sz : Nat} {r : MemoryRegion}
    {st2 : ExecutionState} (h : verify_memory_region_u64 st off sz = .ok (r, st2)) :
    r = ⟨off, sz⟩ ∧ st2.stack = st.stack ∧ st2.message = st.message ∧
    st2.return_data = st.return_data ∧ st2.output_data = st.output_data ∧
    st2.evm_revision = st.evm_revision ∧ st2.gas_left ≤ st.gas_left ∧
    (0 ≤ st.gas_left → 0 ≤ st2.gas_left) ∧ st.memory.length ≤ st2.memory.length := by
  simp only [verify_memory_region_u64] at h
  split at h
  · exact absurd h (by simp)
  · split at h
    · split at h
      · exact absurd h (by simp)
      · rename_i hcur hneg
        injection h with h
        injection h with h1 h2
        subst h1; subst h2
        have hw : st.memory.length / 32 ≤ num_words (off + sz) := by
          have h32 : st.memory.length + 32 ≤ off + sz + 31 := by omega
          have hdd : (st.memory.length + 32) / 32 ≤ (off + sz + 31) / 32 :=
            Nat.div_le_div_right h32
          have heq : (st.memory.length + 32) / 32 = st.memory.length / 32 + 1 :=
            Nat.add_div_right _ (by norm_num)
          unfold num_words
          omega
        have hc := memCost_mono hw
        have hlen : st.memory.length ≤ num_words (off + sz) * 32 := by
          have := le_num_words_mul (off + sz)
          omega
        refine ⟨rfl, rfl, rfl, rfl, rfl, rfl, ?_, fun _ => ?_, ?_⟩
        · dsimp only
          omega
        · dsimp only
          omega
        · simp only [listResize_length _ _ _ hlen]
          omega
    · injection h with h
      injection h with h1 h2
      subst h1; subst h2
      exact ⟨rfl, rfl, rfl, rfl, rfl, rfl, le_refl _, fun hh => hh, le_refl _⟩

/-- Structural facts about a successful verify_memory_region. -/
theorem verify_ok_shape {st : ExecutionState} {off sz : Nat} {ropt : Option MemoryRegion}
    {st2 : ExecutionState} (h : verify_memory_region st off sz = .ok (ropt, st2)) :
    st2.stack = st.stack ∧ st2.message = st.message ∧
    st2.return_data = st.return_data ∧ st2.output_data = st.output_data ∧
    st2.evm_revision = st.evm_revision ∧ st2.gas_left ≤ st.gas_left ∧
    (0 ≤ st.gas_left → 0 ≤ st2.gas_left) ∧ st.memory.length ≤ st2.memory.length ∧
    ((sz = 0 ∧ ropt = none ∧ st2 = st) ∨ (sz ≠ 0 ∧ ropt = some ⟨off, sz⟩)) := by
  unfold verify_memory_region at h
  split at h
  · injection h with h
    injection h with h1 h2
    subst h1; subst h2
    refine ⟨rfl, rfl, rfl, rfl, rfl, le_refl _, fun hh => hh, le_refl _, .inl ⟨by assumption, rfl, rfl⟩⟩
  · split at h
    · exact absurd h (by simp)
    · cases hu : verify_memory_region_u64 st off sz with
      | error e => rw [hu] at h; exact absurd h (by simp [Except.map])
      | ok p =>
        rw [hu] at h
        simp only [Except.map] at h
        injection h with h
        injection h with h1 h2
        obtain ⟨r, stx⟩ := p
        simp only at h1 h2
        subst h2
        have := verify_u64_ok_shape hu
        obtain ⟨hr, h3, h4, h5, h6, h7, h8, h9, h10⟩ := this
        subst hr
        exact ⟨h3, h4, h5, h6, h7, h8, h9, h10, .inr ⟨by assumption, h1.symm⟩⟩

/-- Claim C5 (amended): verify_region returns no region and charges nothing
when size = 0; fails when size or offset exceeds 2^32-1; when the region
extends past the current memory it charges the difference of floored word
costs (3w + floor(w^2/512)) and resizes to new_w * 32 zero-filled bytes, so
memory length stays a multiple of 32 and never shrinks; in-bounds nonzero
regions change nothing. -/
theorem C5_verify_memory_region (st : ExecutionState) (offset size : Nat) :
    (size = 0 → verify_memory_region st offset size = .ok (none, st)) ∧
    (MAX_BUFFER_SIZE < size → verify_memory_region st offset size = .error ()) ∧
    (size ≠ 0 → size ≤ MAX_BUFFER_SIZE → MAX_BUFFER_SIZE < offset →
      verify_memory_region st offset size = .error ()) ∧
    (size ≠ 0 → size ≤ MAX_BUFFER_SIZE → offset ≤ MAX_BUFFER_SIZE →
      st.memory.length < offset + size →
      (let old_w := st.memory.length / 32
       let new_w := num_words (offset + size)
       let cost : Int := ((3 * new_w + new_w * new_w / 512 : Nat) : Int) -
         ((3 * old_w + old_w * old_w / 512 : Nat) : Int)
       (st.gas_left - cost < 0 → verify_memory_region st offset size = .error ()) ∧
       (0 ≤ st.gas_left - cost →
         verify_memory_region st offset size =
           .ok (some ⟨offset, size⟩,
             { st with gas_left := st.gas_left - cost,
                       memory := listResize st.memory (new_w * 32) 0 }) ∧
         (new_w * 32) % 32 = 0 ∧ st.memory.length ≤ new_w * 32))) ∧
    (size ≠ 0 → size ≤ MAX_BUFFER_SIZE → offset ≤ MAX_BUFFER_SIZE →
      offset + size ≤ st.memory.length →
      verify_memory_region st offset size = .ok (some ⟨offset, size⟩, st)) := by
  refine ⟨?_, ?_, ?_, ?_, ?_⟩
  · intro h0
    simp [verify_memory_region, h0]
  · intro hbig
    have : ¬ size = 0 := by unfold MAX_BUFFER_SIZE at hbig; omega
    simp [verify_memory_region, this, hbig]
  · intro h0 _ hoff
    simp only [verify_memory_region, verify_memory_region_u64, if_neg h0]
    rw [if_neg (by omega : ¬ size > MAX_BUFFER_SIZE), if_pos (by omega : offset > MAX_BUFFER_SIZE)]
    simp [Except.map]
  · intro h0 hsz hoff hexp
    constructor
    · intro hneg
      simp only [verify_memory_region, verify_memory_region_u64, if_neg h0]
      rw [if_neg (by omega : ¬ size > MAX_BUFFER_SIZE),
        if_neg (by omega : ¬ offset > MAX_BUFFER_SIZE)]
      rw [if_pos (show offset + size > st.memory.length from hexp)]
      rw [if_pos hneg]
      simp [Except.map]
    · intro hpos
      refine ⟨?_, ?_, ?_⟩
      · simp only [verify_memory_region, verify_memory_region_u64, if_neg h0]
        rw [if_neg (by omega : ¬ size > MAX_BUFFER_SIZE),
          if_neg (by omega : ¬ offset > MAX_BUFFER_SIZE)]
        rw [if_pos (show offset + size > st.memory.length from hexp)]
        rw [if_neg (not_lt.mpr hpos)]
        simp [Except.map]
      · exact Nat.mul_mod_left _ _
      · have := le_num_words_mul (offset + size)
        omega
  · intro h0 hsz hoff hin
    simp only [verify_memory_region, verify_memory_region_u64, if_neg h0]
    rw [if_neg (by omega : ¬ size > MAX_BUFFER_SIZE),
      if_neg (by omega : ¬ offset > MAX_BUFFER_SIZE),
      if_neg (by omega : ¬ offset + size > st.memory.length)]
    simp [Except.map]

/-- The memory state for the C5 counterexample: 160 bytes (5 words) already
allocated, expansion to 736 bytes (23 words) requested. -/
def c5_state : ExecutionState :=
  { gas_left := 1000, stack := [], memory := List.replicate 160 0,
    message := helloMessage, evm_revision := .London,
    return_data := [], output_data := [] }

set_option maxRecDepth 4000 in
/-- Claim C5 counterexample: expanding 5-word memory to 23 words charges
1000 - 945 = 55 gas (difference of floored word costs:
(69 + 529/512) - (15 + 25/512) = 70 - 15), but the claim formula
3*(new_w - old_w) + (new_w^2 - old_w^2)/512 = 54 + 504/512 gives 54. -/
theorem C5_counterexample :
    (verify_memory_region c5_state 160 576).toOption.map (fun r => r.2.gas_left) =
      some 945 ∧
    (1000 - 945 : Int) ≠
      ((3 * (num_words (160 + 576) - c5_state.memory.length / 32) +
        ((num_words (160 + 576)) ^ 2 - (c5_state.memory.length / 32) ^ 2) / 512 : Nat) : Int) := by
  decide

/-- A small state for exercising the expansion branch of C5. -/
def c5w_state : ExecutionState :=
  { gas_left := 100, stack := [], memory := [], message := helloMessage,
    evm_revision := .London, return_data := [], output_data := [] }

theorem C5_witness :
    verify_memory_region c5w_state 0 32 =
      .ok (some ⟨0, 32⟩,
        { c5w_state with gas_left := 97, memory := List.replicate 32 0 }) := by
  obtain ⟨-, hpos⟩ := (C5_verify_memory_region c5w_state 0 32).2.2.2.1 (by decide)
    (by decide) (by decide) (by decide)
  have h := (hpos (by decide)).1
  rw [h]
  decide

/-- Claim C8 (amended): RETURNDATACOPY terminates the frame with
InvalidMemoryAccess whenever source_offset + size exceeds the current
return_data length, provided the memory-region verification (which charges
any expansion gas first) succeeds; the check precedes the per-word copy
charge, so it fires even when the remaining gas could not cover that copy
cost. -/
theorem C8_returndatacopy (state st : ExecutionState) (mem_index input_index size : Nat)
    (rest : List Nat) (regionOpt : Option MemoryRegion)
    (hstack : state.stack = mem_index :: input_index :: size :: rest)
    (hverify : verify_memory_region { state with stack := rest } mem_index size =
      .ok (regionOpt, st))
    (hover : st.return_data.length < input_index + size) :
    returndatacopy state = .error .InvalidMemoryAccess := by
  have hs := verify_ok_shape hverify
  unfold returndatacopy
  rw [hstack]
  simp only [stackPop, List.headD, List.tail]
  rw [hverify]
  dsimp only
  by_cases h1 : input_index > st.return_data.length
  · simp [h1]
  · rcases hs.2.2.2.2.2.2.2.2 with ⟨hz, hnone, _⟩ | ⟨hnz, hsome⟩
    · omega
    · subst hsome
      rw [if_neg h1]
      have hgd :
          (Option.map (fun r => r.size) (some (⟨mem_index, size⟩ : MemoryRegion))).getD 0 =
            size := rfl
      rw [hgd, if_pos (by omega : input_index + size > st.return_data.length)]

/-- The state for the C8 counterexample: RETURNDATACOPY of 32 bytes with
empty return data but only 2 gas left, so the memory-expansion charge
runs out of gas before the bounds check. -/
def c8_state : ExecutionState :=
  { gas_left := 2, stack := [0, 0, 32], memory := [],
    message := helloMessage, evm_revision := .Byzantium,
    return_data := [], output_data := [] }

/-- Claim C8 counterexample: with source_offset + size = 32 exceeding the
empty return_data, the handler reports OutOfGas (from the expansion charge),
not InvalidMemoryAccess, so the claimed check is not pre-gas-charge. -/
theorem C8_counterexample :
    returndatacopy c8_state = .error .OutOfGas ∧
    c8_state.return_data.length < 0 + 32 ∧
    StatusCode.OutOfGas ≠ StatusCode.InvalidMemoryAccess := by
  decide

/-- The state for the C8 witness: 3 gas covers the expansion charge exactly,
leaving nothing for the copy cost; the bounds check still fires first. -/
def c8w_state : ExecutionState :=
  { gas_left := 3, stack := [0, 0, 32], memory := [],
    message := helloMessage, evm_revision := .Byzantium,
    return_data := [], output_data := [] }

/-- The post-verification state of the C8 witness. -/
def c8w_post : ExecutionState :=
  { gas_left := 0, stack := [], memory := List.replicate 32 0,
    message := helloMessage, evm_revision := .Byzantium,
    return_data := [], output_data := [] }

theorem C8_witness : returndatacopy c8w_state = .error .InvalidMemoryAccess :=
  C8_returndatacopy c8w_state c8w_post 0 0 32 [] (some ⟨0, 32⟩) rfl (by decide) (by decide)

/-- The fail-fast path of do_call_rest for a value-bearing CALL whose caller
balance is insufficient: no Call suspension, top of stack untouched (still
the provisional 0), and the handler part of the charge is exactly
9000 - 2300 on top of the region-verification charges. -/
theorem do_call_rest_insufficient_balance (h : EvmHost) (state st1 st2 : ExecutionState)
    (g dst value io isz oo osz : Nat) (evs : List Event)
    (r1 r2 : Option MemoryRegion)
    (hvalue : value ≠ 0)
    (hnstatic : state.message.is_static = false)
    (hdepth : state.message.depth < 1024)
    (hbal : h.get_balance state.message.destination < value)
    (hexists : h.account_exists dst = true)
    (hv1 : verify_memory_region state io isz = .ok (r1, st1))
    (hv2 : verify_memory_region st1 oo osz = .ok (r2, st2))
    (hgas : 0 ≤ st2.gas_left - 9000)
    (hcap : state.evm_revision.atLeast .Tangerine = true ∨
            (g < I64_MAX.toNat ∧ (g : Int) ≤ st2.gas_left - 9000)) :
    do_call_rest h state .Call false g dst value io isz oo osz evs =
      (.ok { st2 with gas_left := st2.gas_left - 9000 + 2300, return_data := [] },
       evs ++ [Event.AccountExists dst] ++ [Event.GetBalance state.message.destination]) := by
  have hs1 := verify_ok_shape hv1
  have hs2 := verify_ok_shape hv2
  have hmsg2 : st2.message = state.message := by rw [hs2.2.1, hs1.2.1]
  have hrev2 : st2.evm_revision = state.evm_revision := by
    rw [hs2.2.2.2.2.1, hs1.2.2.2.2.1]
  unfold do_call_rest
  rw [hv1]
  dsimp only
  rw [hv2]
  dsimp only
  rw [hmsg2, hrev2]
  rw [if_neg (by simp [hnstatic] : ¬ (CallKind.Call = CallKind.Call ∧ value ≠ 0 ∧
    state.message.is_static = true))]
  rw [if_neg (by simp [hexists] : ¬ ((CallKind.Call = CallKind.Call ∧ (value ≠ 0 ∨
    ¬ state.evm_revision.atLeast .Spurious = true)) ∧ h.account_exists dst = false))]
  rw [if_pos hvalue]
  rw [if_pos (show CallKind.Call = CallKind.Call ∧ (value ≠ 0 ∨
    ¬ state.evm_revision.atLeast .Spurious = true) from ⟨rfl, .inl hvalue⟩)]
  rw [if_neg (show ¬ st2.gas_left - 9000 < 0 by omega)]
  rcases hcap with hT | ⟨hglt, hgle⟩
  · rw [if_pos hT]
    dsimp only
    rw [if_pos hvalue, if_pos hvalue, if_pos hdepth, if_pos hvalue, if_pos hbal]
  · by_cases hT2 : state.evm_revision.atLeast .Tangerine = true
    · rw [if_pos hT2]
      dsimp only
      rw [if_pos hvalue, if_pos hvalue, if_pos hdepth, if_pos hvalue, if_pos hbal]
    · rw [if_neg hT2, if_pos hglt]
      dsimp only
      rw [if_neg (show ¬ ((g : Int) > st2.gas_left - 9000) by omega)]
      dsimp only
      rw [if_pos hvalue, if_pos hvalue, if_pos hdepth, if_pos hvalue, if_pos hbal]

/-- Claim C6 (amended): for a CALL with nonzero value whose caller balance
(learned via the GetBalance suspension) is below the value, with the
destination existing and warm, no nested Call suspension is emitted, the
provisional 0 stays on top of the stack, and the gas the handler spends is
exactly the 9000 value surcharge plus the memory-expansion charges (embedded
in st2) minus the 2300 stipend refunded to the frame; the base cost is
debited separately by check_requirements before the handler runs. -/
theorem C6_call_insufficient_balance (h : EvmHost) (state st1 st2 : ExecutionState)
    (g dstW value io isz oo osz : Nat) (rest : List Nat)
    (r1 r2 : Option MemoryRegion)
    (hstack : state.stack = g :: dstW :: value :: io :: isz :: oo :: osz :: rest)
    (hvalue : value ≠ 0)
    (hnstatic : state.message.is_static = false)
    (hdepth : state.message.depth < 1024)
    (hbal : h.get_balance state.message.destination < value)
    (hexists : h.account_exists (u256_to_address dstW) = true)
    (hwarm : state.evm_revision.atLeast .Berlin = false ∨
             h.access_account (u256_to_address dstW) = .Warm)
    (hv1 : verify_memory_region { state with stack := 0 :: rest } io isz = .ok (r1, st1))
    (hv2 : verify_memory_region st1 oo osz = .ok (r2, st2))
    (hgas : 0 ≤ st2.gas_left - 9000)
    (hcap : state.evm_revision.atLeast .Tangerine = true ∨
            (g < I64_MAX.toNat ∧ (g : Int) ≤ st2.gas_left - 9000)) :
    do_call h state .Call false =
      (.ok { st2 with gas_left := st2.gas_left - 9000 + 2300, return_data := [] },
       (if state.evm_revision.atLeast .Berlin = true
        then [Event.AccessAccount (u256_to_address dstW)] else ([] : List Event)) ++
       [Event.AccountExists (u256_to_address dstW)] ++
       [Event.GetBalance state.message.destination]) ∧
    st2.stack = 0 :: rest := by
  have hs1 := verify_ok_shape hv1
  have hs2 := verify_ok_shape hv2
  have hstk : st2.stack = 0 :: rest := by rw [hs2.1, hs1.1]
  refine ⟨?_, hstk⟩
  unfold do_call
  rw [hstack]
  simp only [stackPop, List.headD_cons, List.tail_cons, Bool.false_or]
  rw [if_neg (show ¬ (decide (CallKind.Call = CallKind.DelegateCall) = true) by decide)]
  simp only [stackPop, List.headD_cons, List.tail_cons]
  by_cases hb : state.evm_revision.atLeast .Berlin = true
  · simp only [if_pos hb]
    rcases hwarm with hcontra | hW
    · rw [hb] at hcontra
      exact absurd hcontra (by decide)
    · rw [if_neg (by simp [hW] : ¬ h.access_account (u256_to_address dstW) = AccessStatus.Cold)]
      exact do_call_rest_insufficient_balance h _ st1 st2 g _ value io isz oo osz _ r1 r2
        hvalue hnstatic hdepth hbal hexists hv1 hv2 hgas hcap
  · simp only [if_neg hb]
    exact do_call_rest_insufficient_balance h _ st1 st2 g _ value io isz oo osz _ r1 r2
      hvalue hnstatic hdepth hbal hexists hv1 hv2 hgas hcap

/-- The message of the C6 counterexample: a plain call frame at depth 0 with
destination address 5 and 10000 gas. -/
def c6_message : Message :=
  { kind := .Call, is_static := false, depth := 0, gas := 10000,
    destination := 5, sender := 0, input_data := [], value := 0 }

/-- The C6 counterexample state: a CALL with requested gas 0, destination
0xaa, value 1 and empty regions, at Frontier where the CALL base cost is
40. -/
def c6_state : ExecutionState :=
  { gas_left := 10000, stack := [0, 0xaa, 1, 0, 0, 0, 0], memory := [],
    message := c6_message, evm_revision := .Frontier,
    return_data := [], output_data := [] }

/-- The analyzed single-CALL program of the C6 counterexample. -/
def c6_code : AnalyzedCode := analyze [0xf1]

/-- Claim C6 counterexample: the caller (balance 0) CALLs with value 1; the
instruction spends 10000 - 3260 = 6740 gas = 40 (base) + 9000 - 2300
(stipend refund), not the claimed 40 + 9000; no Call suspension is
emitted and the top of the stack is 0. -/
theorem C6_counterexample :
    (step zeroHost c6_code .Frontier 0 c6_state).1 =
      .cont 1 { c6_state with gas_left := 3260, stack := [0], return_data := [] } ∧
    (step zeroHost c6_code .Frontier 0 c6_state).2 =
      [Event.AccountExists 0xaa, Event.GetBalance 5] ∧
    (10000 - 3260 : Int) ≠ 40 + 9000 := by
  decide

/-- The C6 witness state at Tangerine: CALL with value 1 to 0xaa, empty
regions, 10000 gas in the frame. -/
def c6w_state : ExecutionState :=
  { gas_left := 10000, stack := [0, 0xaa, 1, 0, 0, 0, 0], memory := [],
    message := c6_message, evm_revision := .Tangerine,
    return_data := [], output_data := [] }

/-- The C6 witness state after operand decoding: provisional 0 pushed. -/
def c6w_mid : ExecutionState :=
  { gas_left := 10000, stack := [0], memory := [],
    message := c6_message, evm_revision := .Tangerine,
    return_data := [], output_data := [] }

theorem C6_witness :
    do_call zeroHost c6w_state .Call false =
      (.ok { c6w_mid with gas_left := 10000 - 9000 + 2300, return_data := [] },
       ([] : List Event) ++ [Event.AccountExists 0xaa] ++ [Event.GetBalance 5]) ∧
    c6w_mid.stack = 0 :: [] :=
  C6_call_insufficient_balance zeroHost c6w_state c6w_mid c6w_mid 0 0xaa 1 0 0 0 0 []
    none none rfl (by decide) rfl (by decide) (by decide) rfl (.inl rfl)
    (by decide) (by decide) (by decide) (.inl rfl)

/-- Claim C1: in the Output envelope, every status other than Success and
Revert carries gas_left 0 and empty output_data; a reverted loop result maps
to Revert preserving the gas_left and output_data recorded when the REVERT
instruction broke the loop. -/
theorem C1_output_envelope (h : EvmHost) (s : AnalyzedCode) (message : Message)
    (rev : Revision) (fuel : Nat) (out : Output) (evs : List Event)
    (hx : executeAnalyzed h s message rev fuel = some (out, evs)) :
    (out.status_code ≠ .Success → out.status_code ≠ .Revert →
      out.gas_left = 0 ∧ out.output_data = []) ∧
    (∀ so evs2,
      runLoop h s rev fuel 0 (ExecutionState.new message rev) = some (.ok so, evs2) →
      so.reverted = true →
      out = { status_code := .Revert, gas_left := so.gas_left,
              output_data := so.output_data, create_address := none }) := by
  unfold executeAnalyzed at hx
  cases hr : runLoop h s rev fuel 0 (ExecutionState.new message rev) with
  | none => rw [hr] at hx; exact absurd hx (by simp)
  | some p =>
    rw [hr] at hx
    obtain ⟨r, evs1⟩ := p
    simp only at hx
    injection hx with hx
    injection hx with h1 h2
    constructor
    · intro hnsucc hnrev
      cases r with
      | error sc =>
        rw [← h1]
        exact ⟨rfl, rfl⟩
      | ok so =>
        cases hrev : so.reverted with
        | true =>
          exact absurd (by rw [← h1]; simp [outputOfResult, SuccessfulOutput.toOutput, hrev]) hnrev
        | false =>
          exact absurd (by rw [← h1]; simp [outputOfResult, SuccessfulOutput.toOutput, hrev]) hnsucc
    · intro so evs2 heq hrevd
      injection heq with heq
      injection heq with hq1 hq2
      cases r with
      | error sc => exact absurd hq1 (by simp)
      | ok so2 =>
        have : so2 = so := by injection hq1
        subst this
        rw [← h1]
        simp [outputOfResult, SuccessfulOutput.toOutput, hrevd]

/-- A message with zero gas, driving the C1 witness frame out of gas
immediately. -/
def c1w_message : Message := { helloMessage with gas := 0 }

theorem C1_witness :
    Output.gas_left ⟨.OutOfGas, 0, [], none⟩ = 0 ∧
    Output.output_data ⟨.OutOfGas, 0, [], none⟩ = [] :=
  (C1_output_envelope zeroHost (analyze [0x60]) c1w_message .Frontier 2
    ⟨.OutOfGas, 0, [], none⟩ [] (by decide)).1 (by decide) (by decide)

/-- The SSTORE cost table as claim C4 words it: a cold-access surcharge of
COLD_SLOAD_COST from Berlin on, plus the storage-status charge. -/
def sstoreSpecCost (rev : Revision) (access : AccessStatus) (status : StorageStatus) : Nat :=
  (if rev.atLeast .Berlin ∧ access = .Cold then COLD_SLOAD_COST else 0) +
  (match status with
   | .Unchanged | .ModifiedAgain =>
     if rev.atLeast .Berlin then WARM_STORAGE_READ_COST
     else if rev = .Istanbul then 800
     else if rev = .Constantinople then 200
     else 5000
   | .Modified | .Deleted =>
     if rev.atLeast .Berlin then 5000 - COLD_SLOAD_COST
     else 5000
   | .Added => 20000)

/-- The handler's status cost with the cold pre-charge folded in agrees with
the specification-worded table. -/
theorem sstore_cost_agrees (rev : Revision) (access : AccessStatus) (status : StorageStatus) :
    sstore_status_cost rev
      (if rev.atLeast .Berlin = true then (if access = .Cold then COLD_SLOAD_COST else 0) else 0)
      status = sstoreSpecCost rev access status := by
  by_cases hB : rev.atLeast .Berlin = true <;> by_cases hc : access = AccessStatus.Cold <;>
    cases status <;>
    simp [sstore_status_cost, sstoreSpecCost, hB, hc, COLD_SLOAD_COST, WARM_STORAGE_READ_COST]

/-- Claim C4: SSTORE fails with StaticModeViolation in a static frame; from
Istanbul onward it fails with OutOfGas when gas_left is at most 2300 before
popping the operands; otherwise the debit equals the cold surcharge (Berlin
on) plus the status table of the claim. -/
theorem C4_sstore_costs (h : EvmHost) (state : ExecutionState) :
    (state.message.is_static = true → sstore_op h state = (.error .StaticModeViolation, [])) ∧
    (state.message.is_static = false → state.evm_revision.atLeast .Istanbul = true →
      state.gas_left ≤ 2300 → sstore_op h state = (.error .OutOfGas, [])) ∧
    (state.message.is_static = false →
      ¬ (state.evm_revision.atLeast .Istanbul = true ∧ state.gas_left ≤ 2300) →
      ∀ key value rest, state.stack = key :: value :: rest →
        (let me := state.message.destination
         let cost : Int :=
           (sstoreSpecCost state.evm_revision (h.access_storage me key)
             (h.set_storage me key value) : Nat)
         let evs := (if state.evm_revision.atLeast .Berlin = true
           then [Event.AccessStorage me key] else ([] : List Event)) ++
           [Event.SetStorage me key value]
         (state.gas_left - cost < 0 → sstore_op h state = (.error .OutOfGas, evs)) ∧
         (0 ≤ state.gas_left - cost →
           sstore_op h state =
             (.ok { state with stack := rest, gas_left := state.gas_left - cost }, evs)))) := by
  refine ⟨?_, ?_, ?_⟩
  · intro hs
    unfold sstore_op
    rw [if_pos hs]
  · intro hs hI hg
    unfold sstore_op
    rw [if_neg (by simp [hs]), if_pos ⟨hI, hg⟩]
  · intro hs hni key value rest hstack
    unfold sstore_op
    rw [if_neg (by simp [hs]), if_neg hni, hstack]
    simp only [stackPop, List.headD_cons, List.tail_cons]
    dsimp only
    by_cases hB : state.evm_revision.atLeast .Berlin = true
    · simp only [if_pos hB]
      rw [← sstore_cost_agrees state.evm_revision
        (h.access_storage state.message.destination key) (h.set_storage state.message.destination key value)]
      rw [if_pos hB]
      constructor
      · intro hneg
        rw [if_pos hneg]
      · intro hpos
        rw [if_neg (by omega)]
    · simp only [if_neg hB]
      rw [← sstore_cost_agrees state.evm_revision
        (h.access_storage state.message.destination key) (h.set_storage state.message.destination key value)]
      rw [if_neg hB]
      constructor
      · intro hneg
        rw [if_pos hneg]
      · intro hpos
        rw [if_neg (by omega)]

/-- A non-static Petersburg state with 30000 gas and two stack operands for
the C4 witness. -/
def c4w_state : ExecutionState :=
  { gas_left := 30000, stack := [7, 9], memory := [],
    message := c6_message, evm_revision := .Petersburg,
    return_data := [], output_data := [] }

theorem C4_witness :
    sstore_op zeroHost c4w_state =
      (.ok { c4w_state with stack := [], gas_left := 30000 - 5000 },
       ([] : List Event) ++ [Event.SetStorage 5 7 9]) :=
  (((C4_sstore_costs zeroHost c4w_state).2.2 rfl (by decide) 7 9 [] rfl).2 (by decide))

/-- The events of the nested-call step always end with the Call suspension it
yields. -/
theorem do_call_execute_events (h : EvmHost) (st : ExecutionState) (msg : Message)
    (r : Option MemoryRegion) (evs : List Event) :
    (do_call_execute h st msg r evs).2 = evs ++ [Event.Call msg] := by
  unfold do_call_execute
  cases r <;> simp

/-- The events of the nested-creation step always end with the Call
suspension it yields. -/
theorem do_create_execute_events (h : EvmHost) (st : ExecutionState) (k : CallKind)
    (endowment io isz : Nat) (evs : List Event) :
    ∃ m, (do_create_execute h st k endowment io isz evs).2 = evs ++ [Event.Call m] :=
  ⟨_, rfl⟩

set_option maxHeartbeats 2000000 in
/-- A successful do_call_rest that emitted no Call suspension took the
fail-fast path, whose state has return_data cleared. -/
theorem do_call_rest_rd (h : EvmHost) (state : ExecutionState) (kind : CallKind)
    (is_static : Bool) (g dst value io isz oo osz : Nat) (evs : List Event)
    (st : ExecutionState) (evs2 : List Event)
    (hx : do_call_rest h state kind is_static g dst value io isz oo osz evs = (.ok st, evs2))
    (hno : ∀ m, Event.Call m ∉ evs2) : st.return_data = [] := by
  unfold do_call_rest at hx
  iterate 16
    all_goals
      first
        | (simp at hx; done)
        | (injection hx with hx1 hx2
           injection hx1 with hx1
           subst hx1
           rfl)
        | (exfalso
           have he := congrArg Prod.snd hx
           rw [do_call_execute_events] at he
           exact hno _ (he ▸ List.mem_append_right _ (List.mem_singleton_self _)))
        | (split at hx <;> (try dsimp only at hx))
        | skip

/-- Claim C10: every CALL-family instruction and CREATE/CREATE2 clears
return_data before the depth/balance fail-fast check: a successful handler
outcome that emitted no nested Call suspension leaves return_data empty, the
previous nested call's output discarded. -/
theorem C10_return_data_cleared :
    (∀ (h : EvmHost) (state : ExecutionState) (kind : CallKind) (is_static : Bool)
       (st : ExecutionState) (evs : List Event),
       do_call h state kind is_static = (.ok st, evs) →
       (∀ m, Event.Call m ∉ evs) → st.return_data = []) ∧
    (∀ (h : EvmHost) (state : ExecutionState) (create2 : Bool)
       (st : ExecutionState) (evs : List Event),
       do_create h state create2 = (.ok st, evs) →
       (∀ m, Event.Call m ∉ evs) → st.return_data = []) := by
  constructor
  · intro h state kind is_static st evs hx hno
    unfold do_call at hx
    iterate 8
      all_goals
        first
          | (simp at hx; done)
          | (exact do_call_rest_rd _ _ _ _ _ _ _ _ _ _ _ _ _ _ hx hno)
          | (split at hx <;> (try dsimp only at hx))
          | skip
  · intro h state create2 st evs hx hno
    unfold do_create at hx
    iterate 12
      all_goals
        first
          | (simp at hx; done)
          | (injection hx with hx1 hx2
             injection hx1 with hx1
             subst hx1
             rfl)
          | (exfalso
             have he := congrArg Prod.snd hx
             obtain ⟨m, he2⟩ := do_create_execute_events h _ _ _ _ _ _
             rw [he2] at he
             exact hno _ (he ▸ List.mem_append_right _ (List.mem_singleton_self _)))
          | (split at hx <;> (try dsimp only at hx))
          | skip

/-- The C10 witness state: a CALL at depth 1024 with stale return data from a
previous nested call. -/
def c10w_state : ExecutionState :=
  { gas_left := 10000, stack := [0, 0xaa, 0, 0, 0, 0, 0], memory := [],
    message := { c6_message with depth := 1024 }, evm_revision := .Frontier,
    return_data := [1, 2, 3], output_data := [] }

theorem C10_witness :
    ExecutionState.return_data
      { c10w_state with stack := [0], return_data := [] } = [] :=
  (C10_return_data_cleared).1 zeroHost c10w_state .Call false
    { c10w_state with stack := [0], return_data := [] }
    [Event.AccountExists 0xaa] (by decide) (by intro m hm; simp at hm)

/-! The analyzer correctness development for claim C3. -/

/-- The byte positions the analyzer cursor visits, starting at i (claim C3's
"reached by the analyzer's linear scan"); the fuel bounds the structural
recursion exactly as in scanLoop. -/
def scanPositions (code : List Nat) : Nat → Nat → List Nat
  | 0, _ => []
  | fuel + 1, i =>
    if i < code.length then i :: scanPositions code fuel (i + opus (code.getD i 0))
    else []

/-- Is the opcode one of PUSH1..PUSH32. -/
def isPush (opcode : Nat) : Bool := decide (0x60 ≤ opcode ∧ opcode ≤ 0x7f)

/-- Byte index p lies among the immediate bytes of a PUSH instruction reached
by the analyzer's linear scan (the claim C3 side condition). -/
def insidePushImmediate (code : List Nat) (p : Nat) : Prop :=
  ∃ q ∈ scanPositions code code.length 0,
    isPush (code.getD q 0) = true ∧ q < p ∧ p ≤ q + (code.getD q 0 - 0x60 + 1)

theorem opus_of_push {op : Nat} (h : isPush op = true) : opus op = op - 0x60 + 2 := by
  simp [isPush] at h
  unfold opus
  rw [if_neg (by omega), if_pos (by omega)]

theorem opus_of_not_push {op : Nat} (h : ¬ isPush op = true) : opus op = 1 := by
  simp [isPush] at h
  unfold opus
  split
  · rfl
  · rw [if_neg (by omega)]

theorem scanPositions_mem_bounds {code : List Nat} {fuel i q : Nat}
    (h : q ∈ scanPositions code fuel i) : i ≤ q ∧ q < code.length := by
  induction fuel generalizing i with
  | zero =>
    rw [scanPositions] at h
    exact absurd h (List.not_mem_nil _)
  | succ fuel ih =>
    rw [scanPositions] at h
    by_cases hi : i < code.length
    · rw [if_pos hi] at h
      rcases List.mem_cons.mp h with h | h
      · omega
      · have := ih h
        have := opus_pos (code.getD i 0)
        omega
    · rw [if_neg hi] at h
      exact absurd h (List.not_mem_nil _)

/-- Two distinct scan positions are separated by at least the cursor advance
of the earlier one. -/
theorem scanPositions_separated {code : List Nat} {fuel i q p : Nat}
    (hq : q ∈ scanPositions code fuel i) (hp : p ∈ scanPositions code fuel i)
    (hlt : q < p) : q + opus (code.getD q 0) ≤ p := by
  induction fuel generalizing i with
  | zero =>
    rw [scanPositions] at hq
    exact absurd hq (List.not_mem_nil _)
  | succ fuel ih =>
    rw [scanPositions] at hq hp
    by_cases hi : i < code.length
    · rw [if_pos hi] at hq hp
      rcases List.mem_cons.mp hq with hq1 | hq1
      · subst hq1
        rcases List.mem_cons.mp hp with hp1 | hp1
        · omega
        · exact (scanPositions_mem_bounds hp1).1
      · rcases List.mem_cons.mp hp with hp1 | hp1
        · have := (scanPositions_mem_bounds hq1).1
          have := opus_pos (code.getD i 0)
          omega
        · exact ih hq1 hp1
    · rw [if_neg hi] at hq
      exact absurd hq (List.not_mem_nil _)

/-- Every byte position is either a scan position or inside the immediate of
a reached PUSH, whenever the fuel suffices to finish the scan. -/
theorem scanPositions_cover {code : List Nat} {fuel i p : Nat}
    (hfuel : code.length ≤ i + fuel) (hip : i ≤ p) (hp : p < code.length) :
    p ∈ scanPositions code fuel i ∨
      ∃ q ∈ scanPositions code fuel i,
        isPush (code.getD q 0) = true ∧ q < p ∧ p ≤ q + (code.getD q 0 - 0x60 + 1) := by
  induction fuel generalizing i with
  | zero => exact absurd hp (by omega)
  | succ fuel ih =>
    rw [scanPositions]
    have hi : i < code.length := by omega
    rw [if_pos hi]
    by_cases hpi : p = i
    · subst hpi
      exact .inl (List.mem_cons_self _ _)
    · by_cases hnext : i + opus (code.getD i 0) ≤ p
      · have hf2 : code.length ≤ i + opus (code.getD i 0) + fuel := by
          have := opus_pos (code.getD i 0)
          omega
        rcases ih hf2 hnext with h | ⟨q, hq, hrest⟩
        · exact .inl (List.mem_cons_of_mem _ h)
        · exact .inr ⟨q, List.mem_cons_of_mem _ hq, hrest⟩
      · right
        refine ⟨i, List.mem_cons_self _ _, ?_, by omega, ?_⟩
        · by_cases hpush : isPush (code.getD i 0) = true
          · exact hpush
          · have := opus_of_not_push hpush
            omega
        · by_cases hpush : isPush (code.getD i 0) = true
          · have := opus_of_push hpush
            omega
          · have := opus_of_not_push hpush
            omega

/-- The marking loop computes exactly: marked iff previously marked, or a
JUMPDEST byte at a scan position. -/
theorem scanLoop_getD (code : List Nat) (fuel i : Nat) (m : List Bool) (p : Nat)
    (hfuel : code.length ≤ i + fuel) (hlen : m.length = code.length) :
    ((scanLoop code fuel i m).1.getD p false = true ↔
      (m.getD p false = true ∨
        (p ∈ scanPositions code fuel i ∧ code.getD p 0 = 0x5b))) := by
  induction fuel generalizing i m with
  | zero =>
    rw [scanLoop, scanPositions]
    simp
  | succ fuel ih =>
    rw [scanLoop, scanPositions]
    by_cases hi : i < code.length
    case neg =>
      rw [if_neg hi, if_neg hi]
      simp
    rw [if_pos hi, if_pos hi]
    dsimp only
    have hf2 : code.length ≤ i + opus (code.getD i 0) + fuel := by
      have := opus_pos (code.getD i 0)
      omega
    by_cases hop : code.getD i 0 = 0x5b
    · rw [if_pos hop]
      rw [ih _ (m.set i true) hf2 (by simp [hlen])]
      constructor
      · rintro (hset | hmem)
        · by_cases hpi : p = i
          · subst hpi
            exact .inr ⟨List.mem_cons_self _ _, hop⟩
          · left
            rw [List.getD_eq_getElem?_getD, List.getElem?_set_ne (by omega)] at hset
            rw [List.getD_eq_getElem?_getD]
            exact hset
        · exact .inr ⟨List.mem_cons_of_mem _ hmem.1, hmem.2⟩
      · rintro (hm | ⟨hmem, h5b⟩)
        · by_cases hpi : p = i
          · subst hpi
            left
            rw [List.getD_eq_getElem?_getD, List.getElem?_set_self (by omega)]
            rfl
          · left
            rw [List.getD_eq_getElem?_getD, List.getElem?_set_ne (by omega)]
            rw [List.getD_eq_getElem?_getD] at hm
            exact hm
        · rcases List.mem_cons.mp hmem with hpi | hmem2
          · subst hpi
            left
            rw [List.getD_eq_getElem?_getD, List.getElem?_set_self (by omega)]
            rfl
          · exact .inr ⟨hmem2, h5b⟩
    · rw [if_neg hop]
      rw [ih _ m hf2 hlen]
      constructor
      · rintro (hm | hmem)
        · exact .inl hm
        · exact .inr ⟨List.mem_cons_of_mem _ hmem.1, hmem.2⟩
      · rintro (hm | ⟨hmem, h5b⟩)
        · exact .inl hm
        · rcases List.mem_cons.mp hmem with hpi | hmem2
          · subst hpi
            exact absurd h5b hop
          · exact .inr ⟨hmem2, h5b⟩

/-- Claim C3: for every byte index p below the code length, the analyzer's
jumpdest_map is true at p iff the byte at p is 0x5B and p is not among the
immediate bytes of a PUSH1..PUSH32 reached by the analyzer's linear scan; in
particular immediate bytes equal to 0x5B are marked false. -/
theorem C3_jumpdest_map (code : List Nat) (p : Nat) (hp : p < code.length) :
    ((analyze code).jumpdest_map.getD p false = true ↔
      (code.getD p 0 = 0x5b ∧ ¬ insidePushImmediate code p)) := by
  unfold analyze
  dsimp only
  rw [scanLoop_getD code code.length 0 (List.replicate code.length false) p
    (by omega) (by simp)]
  have hrep : (List.replicate code.length false).getD p false = false := by
    rw [List.getD_eq_getElem?_getD]
    rw [List.getElem?_replicate]
    simp [hp]
  rw [hrep]
  simp only [Bool.false_eq_true, false_or]
  constructor
  · rintro ⟨hmem, h5b⟩
    refine ⟨h5b, ?_⟩
    rintro ⟨q, hq, hpush, hlt, hle⟩
    have hsep := scanPositions_separated hq hmem hlt
    have := opus_of_push hpush
    omega
  · rintro ⟨h5b, hnotin⟩
    rcases @scanPositions_cover code code.length 0 p (by omega) (Nat.zero_le p) hp with
      hmem | ⟨q, hq, hrest⟩
    · exact ⟨hmem, h5b⟩
    · exact absurd ⟨q, hq, hrest⟩ hnotin

theorem C3_witness :
    (0x5b = 0x5b ∧ ¬ insidePushImmediate [0x60, 0x5b, 0x5b] 2) ∧
    ¬ ((analyze [0x60, 0x5b, 0x5b]).jumpdest_map.getD 1 false = true) := by
  constructor
  · exact (C3_jumpdest_map [0x60, 0x5b, 0x5b] 2 (by decide)).mp (by decide)
  · intro hmap
    have h2 := (C3_jumpdest_map [0x60, 0x5b, 0x5b] 1 (by decide)).mp hmap
    exact h2.2 ⟨0, by decide, by decide, by decide, by decide⟩

/-! Gas accounting lemmas for claim C2: every handler spends gas (never
mints it) given an honest host, and every frame-leaving state holds
nonnegative gas. -/

theorem check_requirements_gas {rev : Revision} {st : ExecutionState} {op : Nat}
    {st2 : ExecutionState} (h : check_requirements rev st op = .ok st2) :
    st2.gas_left ≤ st.gas_left ∧ 0 ≤ st2.gas_left := by
  unfold check_requirements at h
  split at h
  · simp at h
  · dsimp only at h
    split at h
    · simp at h
    · rename_i hneg
      split at h
      · split at h
        · simp at h
        · injection h with h
          subst h
          constructor <;> (dsimp only; omega)
      · split at h
        · simp at h
        · injection h with h
          subst h
          constructor <;> (dsimp only; omega)

theorem op_jump_gas {st : ExecutionState} {jm : List Bool} {dst : Nat}
    {st2 : ExecutionState} (h : op_jump st jm = .ok (dst, st2)) :
    st2.gas_left = st.gas_left := by
  simp only [op_jump, stackPop] at h
  split at h
  · injection h with h
    injection h with h1 h2
    subst h2
    rfl
  · simp at h

theorem blockhash_op_gas (h : EvmHost) (st : ExecutionState) :
    (blockhash_op h st).1.gas_left = st.gas_left := by
  simp only [blockhash_op, stackPop]
  split <;> rfl

theorem ret_gas {st st2 : ExecutionState} (h : ret st = .ok st2) :
    st2.gas_left ≤ st.gas_left ∧ (0 ≤ st.gas_left → 0 ≤ st2.gas_left) := by
  unfold ret at h
  dsimp only at h
  split at h
  · simp at h
  · rename_i region stx heq
    injection h with h
    subst h
    have hs := verify_ok_shape heq
    exact ⟨hs.2.2.2.2.2.1, hs.2.2.2.2.2.2.1⟩
  · rename_i stx heq
    injection h with h
    subst h
    have hs := verify_ok_shape heq
    exact ⟨hs.2.2.2.2.2.1, hs.2.2.2.2.2.2.1⟩

/-- Lift a per-handler gas bound through fromExcept. -/
theorem gasOk_fromExcept {g : Int} {pc : Nat} {r : Except StatusCode ExecutionState}
    (hr : ∀ st2, r = .ok st2 → st2.gas_left ≤ g) : gasOk g (fromExcept pc r) := by
  cases r with
  | error sc => trivial
  | ok st2 => exact hr st2 rfl

/-- Lift a per-handler gas bound through fromHandler. -/
theorem gasOk_fromHandler {g : Int} {pc : Nat} {r : HandlerResult}
    (hr : ∀ st2, r.1 = .ok st2 → st2.gas_left ≤ g) : gasOk g (fromHandler pc r).1 := by
  unfold fromHandler
  split
  · trivial
  · rename_i st2 heq
    exact hr st2 heq

theorem arith_exp_gas {st st2 : ExecutionState} (h : arith_exp st = .ok st2) :
    st2.gas_left ≤ st.gas_left := by
  simp only [arith_exp, stackPop] at h
  split at h
  · try dsimp only at h
    split at h <;> split at h <;>
      first
        | (simp at h; done)
        | (injection h with h
           subst h
           exact sub_le_self _ (by positivity))
  · injection h with h
    subst h
    exact le_refl _

theorem mload_gas {st st2 : ExecutionState} (h : mload st = .ok st2) :
    st2.gas_left ≤ st.gas_left := by
  simp only [mload, stackPop] at h
  split at h
  · simp at h
  · rename_i region stx heq
    injection h with h
    subst h
    exact (verify_u64_ok_shape heq).2.2.2.2.2.2.1

theorem mstore_gas {st st2 : ExecutionState} (h : mstore st = .ok st2) :
    st2.gas_left ≤ st.gas_left := by
  simp only [mstore, stackPop] at h
  split at h
  · simp at h
  · rename_i region stx heq
    injection h with h
    subst h
    exact (verify_u64_ok_shape heq).2.2.2.2.2.2.1

theorem mstore8_gas {st st2 : ExecutionState} (h : mstore8 st = .ok st2) :
    st2.gas_left ≤ st.gas_left := by
  simp only [mstore8, stackPop] at h
  split at h
  · simp at h
  · rename_i region stx heq
    injection h with h
    subst h
    exact (verify_u64_ok_shape heq).2.2.2.2.2.2.1

theorem calldatacopy_gas {st st2 : ExecutionState} (h : calldatacopy st = .ok st2) :
    st2.gas_left ≤ st.gas_left := by
  simp only [calldatacopy, stackPop] at h
  split at h
  · simp at h
  · rename_i stx heq
    injection h with h
    subst h
    exact (verify_ok_shape heq).2.2.2.2.2.1
  · rename_i region stx heq
    try dsimp only at h
    split at h
    · simp at h
    · injection h with h
      subst h
      have hs := (verify_ok_shape heq).2.2.2.2.2.1
      try dsimp only at hs
      dsimp only
      omega

theorem keccak256_gas {h : EvmHost} {st st2 : ExecutionState}
    (hx : keccak256 h st = .ok st2) : st2.gas_left ≤ st.gas_left := by
  simp only [keccak256, stackPop] at hx
  split at hx
  · simp at hx
  · rename_i stx heq
    injection hx with hx
    subst hx
    exact (verify_ok_shape heq).2.2.2.2.2.1
  · rename_i region stx heq
    try dsimp only at hx
    split at hx
    · simp at hx
    · injection hx with hx
      subst hx
      have hs := (verify_ok_shape heq).2.2.2.2.2.1
      try dsimp only at hs
      dsimp only
      omega

theorem codecopy_gas {st st2 : ExecutionState} {code : List Nat}
    (h : codecopy st code = .ok st2) : st2.gas_left ≤ st.gas_left := by
  simp only [codecopy, stackPop] at h
  split at h
  · simp at h
  · rename_i stx heq
    injection h with h
    subst h
    exact (verify_ok_shape heq).2.2.2.2.2.1
  · rename_i region stx heq
    try dsimp only at h
    split at h
    · simp at h
    · injection h with h
      subst h
      have hs := (verify_ok_shape heq).2.2.2.2.2.1
      try dsimp only at hs
      dsimp only
      omega

theorem returndatacopy_gas {st st2 : ExecutionState} (h : returndatacopy st = .ok st2) :
    st2.gas_left ≤ st.gas_left := by
  simp only [returndatacopy, stackPop] at h
  split at h
  · simp at h
  · rename_i ropt stx heq
    try dsimp only at h
    split at h
    · simp at h
    · split at h
      · simp at h
      · split at h
        · injection h with h
          subst h
          exact (verify_ok_shape heq).2.2.2.2.2.1
        · try dsimp only at h
          split at h
          · simp at h
          · injection h with h
            subst h
            have hs := (verify_ok_shape heq).2.2.2.2.2.1
            try dsimp only at hs
            dsimp only
            omega

theorem balance_op_gas {h : EvmHost} {st st2 : ExecutionState}
    (hx : (balance_op h st).1 = .ok st2) : st2.gas_left ≤ st.gas_left := by
  simp only [balance_op, stackPop] at hx
  split at hx
  · split at hx
    · split at hx
      · simp at hx
      · try dsimp only at hx
        injection hx with hx
        subst hx
        dsimp only
        omega
    · try dsimp only at hx
      injection hx with hx
      subst hx
      exact le_refl _
  · try dsimp only at hx
    injection hx with hx
    subst hx
    exact le_refl _

theorem extcodesize_op_gas {h : EvmHost} {st st2 : ExecutionState}
    (hx : (extcodesize_op h st).1 = .ok st2) : st2.gas_left ≤ st.gas_left := by
  simp only [extcodesize_op, stackPop] at hx
  split at hx
  · split at hx
    · split at hx
      · simp at hx
      · try dsimp only at hx
        injection hx with hx
        subst hx
        dsimp only
        omega
    · try dsimp only at hx
      injection hx with hx
      subst hx
      exact le_refl _
  · try dsimp only at hx
    injection hx with hx
    subst hx
    exact le_refl _

theorem extcodehash_op_gas {h : EvmHost} {st st2 : ExecutionState}
    (hx : (extcodehash_op h st).1 = .ok st2) : st2.gas_left ≤ st.gas_left := by
  simp only [extcodehash_op, stackPop] at hx
  split at hx
  · split at hx
    · split at hx
      · simp at hx
      · try dsimp only at hx
        injection hx with hx
        subst hx
        dsimp only
        omega
    · try dsimp only at hx
      injection hx with hx
      subst hx
      exact le_refl _
  · try dsimp only at hx
    injection hx with hx
    subst hx
    exact le_refl _

theorem sload_op_gas {h : EvmHost} {st st2 : ExecutionState}
    (hx : (sload_op h st).1 = .ok st2) : st2.gas_left ≤ st.gas_left := by
  simp only [sload_op, stackPop] at hx
  split at hx
  · split at hx
    · split at hx
      · simp at hx
      · try dsimp only at hx
        injection hx with hx
        subst hx
        dsimp only
        omega
    · try dsimp only at hx
      injection hx with hx
      subst hx
      exact le_refl _
  · try dsimp only at hx
    injection hx with hx
    subst hx
    exact le_refl _

theorem sstore_op_gas {h : EvmHost} {st st2 : ExecutionState}
    (hx : (sstore_op h st).1 = .ok st2) : st2.gas_left ≤ st.gas_left := by
  simp only [sstore_op, stackPop] at hx
  iterate 7
    (all_goals first
      | (simp at hx; done)
      | (try dsimp only at hx
         injection hx with hx
         subst hx
         dsimp only
         omega)
      | (split at hx <;> try dsimp only at hx)
      | skip)

theorem do_log_gas {h : EvmHost} {st st2 : ExecutionState} {n : Nat}
    (hx : (do_log h st n).1 = .ok st2) : st2.gas_left ≤ st.gas_left := by
  simp only [do_log, stackPop] at hx
  split at hx
  · simp at hx
  · split at hx
    · simp at hx
    · rename_i ropt stx heq
      have hs := (verify_ok_shape heq).2.2.2.2.2.1
      try dsimp only at hs
      cases ropt with
      | none =>
        try dsimp only at hx
        injection hx with hx
        subst hx
        dsimp only
        omega
      | some region =>
        try dsimp only at hx
        split at hx
        · simp at hx
        · rename_i st3 heq2
          split at heq2
          · simp at heq2
          · injection heq2 with heq2
            subst heq2
            try dsimp only at hx
            injection hx with hx
            subst hx
            dsimp only
            omega

theorem extcodecopy_op_gas {h : EvmHost} {st st2 : ExecutionState}
    (hx : (extcodecopy_op h st).1 = .ok st2) : st2.gas_left ≤ st.gas_left := by
  simp only [extcodecopy_op, stackPop] at hx
  split at hx
  · simp at hx
  · rename_i ropt stx heq
    have hs := (verify_ok_shape heq).2.2.2.2.2.1
    try dsimp only at hs
    split at hx
    · simp at hx
    · rename_i st3 heq2
      have h3 : st3.gas_left ≤ stx.gas_left := by
        split at heq2
        · rename_i region
          split at heq2
          · simp at heq2
          · injection heq2 with heq2
            subst heq2
            dsimp only
            omega
        · injection heq2 with heq2
          subst heq2
          exact le_refl _
      split at hx
      · simp at hx
      · rename_i st4 evs4 heq3
        have h4 : st4.gas_left ≤ st3.gas_left := by
          split at heq3
          · split at heq3
            · split at heq3
              · simp at heq3
              · injection heq3 with h1 h2
                injection h1 with h1
                subst h1
                dsimp only
                omega
            · injection heq3 with h1 h2
              injection h1 with h1
              subst h1
              exact le_refl _
          · injection heq3 with h1 h2
            injection h1 with h1
            subst h1
            exact le_refl _
        split at hx
        · try dsimp only at hx
          injection hx with hx
          subst hx
          omega
        · rename_i region
          try dsimp only at hx
          injection hx with hx
          subst hx
          dsimp only
          omega

theorem selfdestruct_op_gas {h : EvmHost} {st st2 : ExecutionState}
    (hx : (selfdestruct_op h st).1 = .ok st2) :
    st2.gas_left ≤ st.gas_left ∧ (0 ≤ st.gas_left → 0 ≤ st2.gas_left) := by
  simp only [selfdestruct_op, stackPop] at hx
  split at hx
  · simp at hx
  · split at hx
    · simp at hx
    · rename_i st3 evs3 heq2
      have h3 : st3.gas_left ≤ st.gas_left ∧ (0 ≤ st.gas_left → 0 ≤ st3.gas_left) := by
        split at heq2
        · split at heq2
          · split at heq2
            · simp at heq2
            · injection heq2 with h1 h2
              injection h1 with h1
              subst h1
              constructor
              · dsimp only; omega
              · intro hg; dsimp only; omega
          · injection heq2 with h1 h2
            injection h1 with h1
            subst h1
            exact ⟨le_refl _, fun hg => hg⟩
        · injection heq2 with h1 h2
          injection h1 with h1
          subst h1
          exact ⟨le_refl _, fun hg => hg⟩
      iterate 8
        (all_goals first
          | (simp at hx; done)
          | (try dsimp only at hx
             injection hx with hx
             subst hx
             refine ⟨?_, fun hg => ?_⟩ <;> (try dsimp only) <;> omega)
          | (split at hx <;> try dsimp only at hx)
          | skip)

theorem do_call_execute_gas {h : EvmHost} (hH : HostOk h) {st st2 : ExecutionState}
    {msg : Message} {oreg : Option MemoryRegion} {evs evs2 : List Event}
    (hx : do_call_execute h st msg oreg evs = (.ok st2, evs2)) :
    st2.gas_left ≤ st.gas_left := by
  simp only [do_call_execute] at hx
  have hcall := hH msg
  injection hx with hx1 hx2
  injection hx1 with hx1
  subst hx1
  rcases oreg with _ | r
  · dsimp only
    omega
  · dsimp only
    split <;> (dsimp only; omega)

set_option maxHeartbeats 2000000 in
theorem do_call_rest_gas {h : EvmHost} (hH : HostOk h) {state st2 : ExecutionState}
    {kind : CallKind} {is_static : Bool} {gas dst value input_offset input_size
      output_offset output_size : Nat} {evs evs2 : List Event}
    (hx : do_call_rest h state kind is_static gas dst value input_offset input_size
      output_offset output_size evs = (.ok st2, evs2)) :
    st2.gas_left ≤ state.gas_left := by
  simp only [do_call_rest] at hx
  split at hx
  · simp at hx
  · rename_i ir st1 heq1
    have hv1 := (verify_ok_shape heq1).2.2.2.2.2.1
    try dsimp only at hv1
    split at hx
    · simp at hx
    · rename_i orr st1b heq2
      have hv2 := (verify_ok_shape heq2).2.2.2.2.2.1
      try dsimp only at hv2
      split at hx
      · simp at hx
      · iterate 14
          (all_goals first
            | (simp at hx; done)
            | (try dsimp only at hx
               injection hx with hx1 hx2
               injection hx1 with hx1
               subst hx1
               dsimp only
               omega)
            | (exact le_trans (do_call_execute_gas hH hx) (by dsimp only; omega))
            | (split at hx <;> try dsimp only at hx)
            | skip)

theorem do_call_gas {h : EvmHost} (hH : HostOk h) {st0 st2 : ExecutionState} {kind : CallKind}
    {is_static : Bool} {evs2 : List Event}
    (hx : do_call h st0 kind is_static = (.ok st2, evs2)) :
    st2.gas_left ≤ st0.gas_left := by
  simp only [do_call, stackPop] at hx
  iterate 6
    (all_goals first
      | (simp at hx; done)
      | (exact le_trans (do_call_rest_gas hH hx) (by dsimp only; omega))
      | (split at hx <;> try dsimp only at hx)
      | skip)

theorem do_create_execute_gas {h : EvmHost} (hH : HostOk h) {st st2 : ExecutionState}
    {ck : CallKind} {endowment ico ics : Nat} {evs evs2 : List Event}
    (hx : do_create_execute h st ck endowment ico ics evs = (.ok st2, evs2)) :
    st2.gas_left ≤ st.gas_left := by
  simp only [do_create_execute] at hx
  have hcall := hH (create_nested_message st ck endowment ico ics)
  injection hx with hx1 hx2
  injection hx1 with hx1
  subst hx1
  split <;> (dsimp only; omega)

theorem do_create_gas {h : EvmHost} (hH : HostOk h) {st0 st2 : ExecutionState}
    {create2 : Bool} {evs2 : List Event}
    (hx : do_create h st0 create2 = (.ok st2, evs2)) :
    st2.gas_left ≤ st0.gas_left := by
  simp only [do_create, stackPop] at hx
  split at hx
  · simp at hx
  · split at hx
    · simp at hx
    · rename_i ropt st1 heq
      have hv := (verify_ok_shape heq).2.2.2.2.2.1
      try dsimp only at hv
      split at hx
      · simp at hx
      · rename_i ck st3 heqs
        have h3 : st3.gas_left ≤ st1.gas_left := by
          split at heqs
          · split at heqs
            · rename_i r
              split at heqs
              · simp at heqs
              · injection heqs with heqs
                injection heqs with hck hst
                subst hst
                dsimp only
                omega
            · injection heqs with heqs
              injection heqs with hck hst
              subst hst
              exact le_refl _
          · injection heqs with heqs
            injection heqs with hck hst
            subst hst
            exact le_refl _
        iterate 6
          (all_goals first
            | (simp at hx; done)
            | (try dsimp only at hx
               injection hx with hx1 hx2
               injection hx1 with hx1
               subst hx1
               dsimp only
               omega)
            | (exact le_trans (do_create_execute_gas hH hx) (by dsimp only; omega))
            | (split at hx <;> try dsimp only at hx)
            | skip)

theorem pair_of_fst {α β : Type} {p : α × β} {a : α} (hp : p.1 = a) : p = (a, p.2) := by
  cases p
  cases hp
  rfl

set_option maxHeartbeats 4000000 in
/-- One interpreter step keeps gas within bounds: a continuing state has at
most the gas it started with, a frame-leaving state in addition holds
nonnegative gas. -/
theorem step_gas (h : EvmHost) (s : AnalyzedCode) (rev : Revision) (pc : Nat)
    (st0 : ExecutionState) (hH : HostOk h) :
    gasOk st0.gas_left (step h s rev pc st0).1 := by
  unfold step
  dsimp only
  cases hcr : check_requirements rev st0 (s.padded_code.getD pc 0) with
  | error sc => exact trivial
  | ok state =>
    obtain ⟨hle, hnn⟩ := check_requirements_gas hcr
    dsimp only
    iterate 120
      (all_goals first
        | exact trivial
        | exact hle
        | exact ⟨hnn, hle⟩
        | exact gasOk_fromExcept (fun st2 hst => le_trans (arith_exp_gas hst) hle)
        | exact gasOk_fromExcept (fun st2 hst => le_trans (keccak256_gas hst) hle)
        | exact gasOk_fromExcept (fun st2 hst => le_trans (calldatacopy_gas hst) hle)
        | exact gasOk_fromExcept (fun st2 hst => le_trans (codecopy_gas hst) hle)
        | exact gasOk_fromExcept (fun st2 hst => le_trans (returndatacopy_gas hst) hle)
        | exact gasOk_fromExcept (fun st2 hst => le_trans (mload_gas hst) hle)
        | exact gasOk_fromExcept (fun st2 hst => le_trans (mstore_gas hst) hle)
        | exact gasOk_fromExcept (fun st2 hst => le_trans (mstore8_gas hst) hle)
        | exact gasOk_fromHandler (fun st2 hst => le_trans (balance_op_gas hst) hle)
        | exact gasOk_fromHandler (fun st2 hst => le_trans (extcodesize_op_gas hst) hle)
        | exact gasOk_fromHandler (fun st2 hst => le_trans (extcodecopy_op_gas hst) hle)
        | exact gasOk_fromHandler (fun st2 hst => le_trans (extcodehash_op_gas hst) hle)
        | exact gasOk_fromHandler (fun st2 hst => le_trans (sload_op_gas hst) hle)
        | exact gasOk_fromHandler (fun st2 hst => le_trans (sstore_op_gas hst) hle)
        | exact gasOk_fromHandler (fun st2 hst => le_trans (do_log_gas hst) hle)
        | exact gasOk_fromHandler
            (fun st2 hst => le_trans (do_call_gas hH (pair_of_fst hst)) hle)
        | (dsimp only [gasOk]
           rw [blockhash_op_gas]
           exact hle)
        | (cases hj : op_jump state s.jumpdest_map with
           | error sc =>
             dsimp only
             exact trivial
           | ok p =>
             obtain ⟨dst, stj⟩ := p
             dsimp only [gasOk, pureStack]
             have h2 := op_jump_gas hj
             omega)
        | (cases hr : ret state with
           | error sc =>
             dsimp only
             exact trivial
           | ok str =>
             dsimp only [gasOk]
             have h2 := ret_gas hr
             exact ⟨h2.2 hnn, le_trans h2.1 hle⟩)
        | (rcases hsd : selfdestruct_op h state with ⟨r, evsd⟩
           rcases r with sc | str
           · dsimp only
             exact trivial
           · dsimp only [gasOk]
             have h2 := selfdestruct_op_gas
               (show (selfdestruct_op h state).1 = .ok str by rw [hsd])
             exact ⟨h2.2 hnn, le_trans h2.1 hle⟩)
        | (rcases hdc : do_create h state false with ⟨r, evsd⟩
           rcases r with sc | str
           · dsimp only
             exact trivial
           · dsimp only [gasOk]
             exact le_trans (do_create_gas hH hdc) hle)
        | (rcases hdc : do_create h state true with ⟨r, evsd⟩
           rcases r with sc | str
           · dsimp only
             exact trivial
           · dsimp only [gasOk]
             exact le_trans (do_create_gas hH hdc) hle)
        | (split <;> try dsimp only)
        | skip)

/-- The interpreter loop keeps gas within [0, initial]: any successful
completion reports nonnegative gas bounded by the gas of the entry state. -/
theorem runLoop_gas {h : EvmHost} (hH : HostOk h) {s : AnalyzedCode} {rev : Revision}
    (fuel : Nat) (pc : Nat) (st : ExecutionState) {so : SuccessfulOutput} {evs : List Event}
    (hx : runLoop h s rev fuel pc st = some (.ok so, evs)) :
    0 ≤ so.gas_left ∧ so.gas_left ≤ st.gas_left := by
  induction fuel generalizing pc st evs with
  | zero =>
    rw [runLoop] at hx
    simp at hx
  | succ fuel ih =>
    rw [runLoop] at hx
    have hg := step_gas h s rev pc st hH
    cases hstep : step h s rev pc st with
    | mk r evs1 =>
      rw [hstep] at hx hg
      cases r with
      | cont pc2 st2 =>
        dsimp only at hx hg
        split at hx
        · simp at hx
        · rename_i r2 evs2 heq
          injection hx with hx
          injection hx with hx1 hx2
          subst hx1
          have hb := ih pc2 st2 heq
          dsimp only [gasOk] at hg
          exact ⟨hb.1, le_trans hb.2 hg⟩
      | brk rv st2 =>
        dsimp only at hx
        injection hx with hx
        injection hx with hx1 hx2
        injection hx1 with hx1
        subst hx1
        dsimp only [gasOk] at hg
        exact ⟨hg.1, hg.2⟩
      | err sc =>
        dsimp only at hx
        simp at hx

/-- Claim C2: for every bytecode, revision and message with nonnegative gas,
under a host whose nested-call replies never report more gas left than the
nested message granted, every completed execution returns an Output whose
gas_left lies in the interval [0, message.gas]. -/
theorem C2_gas_bounds (h : EvmHost) (code : List Nat) (message : Message) (rev : Revision)
    (fuel : Nat) (out : Output) (evs : List Event) (hmsg : 0 ≤ message.gas)
    (hH : HostOk h) (hx : execute h code message rev fuel = some (out, evs)) :
    0 ≤ out.gas_left ∧ out.gas_left ≤ message.gas := by
  unfold execute executeAnalyzed at hx
  split at hx
  · simp at hx
  · rename_i r evs1 heq
    injection hx with hx
    injection hx with hx1 hx2
    subst hx1
    cases r with
    | error sc =>
      constructor
      · exact le_refl _
      · exact hmsg
    | ok so =>
      have hb := runLoop_gas hH fuel 0 (ExecutionState.new message rev) heq
      exact ⟨hb.1, hb.2⟩

theorem C2_witness : 0 ≤ (200 : Int) ∧ (200 : Int) ≤ helloMessage.gas :=
  C2_gas_bounds zeroHost [0x00] helloMessage .London 1
    { status_code := .Success, gas_left := 200, output_data := [], create_address := none } []
    (by decide) (fun m => le_refl m.gas) (by decide)

end Evmodin
